import Mathlib

/-!
Shallow embedding of the Zygotrix C++ genetics engine
(`zygotrix_engine_cpp`): the genetic data model, genotype
normalization, individual creation and mating, the phenotype
expression pipeline of `Engine.cpp`, and the exact Mendelian
calculator of `MendelianCalculator.cpp`.

Probabilities are modelled as rationals (`ℚ`); the C++ `double`
arithmetic on the small dyadic values involved (0.5, 0.25, products
and renormalizations thereof) is exact, so the rational model agrees
with the code on every claim checked here.  String maps
(`std::unordered_map`) are modelled as association lists with unique
keys; map iteration order, which C++ leaves unspecified, is fixed to
insertion order (all iterations whose results the claims observe
commute across entries).  C++ exceptions are modelled with
`Except String`.
-/

deriving instance DecidableEq for Except

namespace Zygotrix

inductive DominancePattern where
  | Complete
  | Codominant
  | Incomplete
deriving DecidableEq, Repr

inductive ChromosomeType where
  | Autosomal
  | X
  | Y
deriving DecidableEq, Repr

inductive Sex where
  | Male
  | Female
deriving DecidableEq, Repr

inductive EpistasisAction where
  | MaskTrait
  | ModifyTraitValue
deriving DecidableEq, Repr

inductive AlleleRequirement where
  | Present
  | Homozygous
  | Heterozygous
  | Hemizygous
deriving DecidableEq, Repr

structure TraitExpression where
  quantitative : ℚ := 0
  descriptors : List String := []
deriving DecidableEq, Repr

structure AlleleEffect where
  traitId : String
  magnitude : ℚ := 0
  description : String := ""
  intermediateDescriptor : String := ""
deriving DecidableEq, Repr

structure AlleleDefinition where
  id : String
  dominanceRank : Int := 0
  effects : List AlleleEffect := []
deriving DecidableEq, Repr

structure GeneDefinition where
  id : String
  chromosome : ChromosomeType := .Autosomal
  dominance : DominancePattern := .Complete
  linkageGroup : Option Nat := none
  recombinationProbability : ℚ := 1/2
  incompleteBlendWeight : ℚ := 1/2
  defaultAlleleId : String := ""
  alleles : List AlleleDefinition := []
deriving DecidableEq, Repr

structure EpistasisRule where
  regulatorGene : String
  triggeringAllele : String
  requirement : AlleleRequirement := .Present
  action : EpistasisAction := .MaskTrait
  targetTrait : String
  modifier : ℚ := 1
  overrideDescription : String := ""
  overrideValue : ℚ := 0
deriving DecidableEq, Repr

/-- `Genotype` is `std::vector<std::string>`: an ordered list of allele ids. -/
abbrev Genotype := List String

structure Individual where
  sex : Sex := .Female
  genotype : List (String × Genotype) := []
deriving DecidableEq, Repr

structure EngineConfig where
  genes : List GeneDefinition := []
  epistasis : List EpistasisRule := []
deriving DecidableEq, Repr

/-- `Phenotype.traits` as an association list with unique keys. -/
abbrev Phenotype := List (String × TraitExpression)

/-! ### Association-list map helpers (model of `std::unordered_map`) -/

/-- First-match lookup (keys are kept unique by the update operations). -/
def lookupA {κ α : Type} [DecidableEq κ] : List (κ × α) → κ → Option α
  | [], _ => none
  | (k, v) :: rest, key => if k = key then some v else lookupA rest key

/-- `m[key] = v` overwrite-or-insert semantics. -/
def setEntry {κ α : Type} [DecidableEq κ] : List (κ × α) → κ → α → List (κ × α)
  | [], key, v => [(key, v)]
  | (k, w) :: rest, key, v =>
      if k = key then (k, v) :: rest else (k, w) :: setEntry rest key v

/-- `m[key]` default-constructs a missing entry, then `f` acts on it
(the way C++ code mutates `map[key]`). -/
def updateA {κ α : Type} [DecidableEq κ] (dflt : α) :
    List (κ × α) → κ → (α → α) → List (κ × α)
  | [], key, f => [(key, f dflt)]
  | (k, w) :: rest, key, f =>
      if k = key then (k, f w) :: rest else (k, w) :: updateA dflt rest key f

/-- Probability maps scored by canonical label. -/
abbrev ProbMap := List (String × ℚ)

/-- `m[key] += p`. -/
def addProb (m : ProbMap) (key : String) (p : ℚ) : ProbMap :=
  updateA 0 m key (· + p)

/-- Total mass of a probability map. -/
def probSum (m : ProbMap) : ℚ := (m.map Prod.snd).sum

/-- Lookup with default 0, for stating accumulation facts. -/
def lookupP (m : ProbMap) (key : String) : ℚ := (lookupA m key).getD 0

/-! ### Genotype normalization (`GenotypeNormalizer::normalize`,
`Engine::normalizedGenotype`; both bodies are identical). -/

/-- Membership of an allele id in the gene's allele set; `requireAllele`
succeeds exactly when this holds (the engine's per-gene allele index
contains precisely the ids of `gene.alleles`). -/
def alleleExists (gene : GeneDefinition) (alleleId : String) : Bool :=
  gene.alleles.any (fun a => a.id = alleleId)

/-- The `ensureTwoAlleles` lambda: diploid fill-in/validation. -/
def ensureTwoAlleles (gene : GeneDefinition) : Genotype → Except String Genotype
  | [] => .ok [gene.defaultAlleleId, gene.defaultAlleleId]
  | [a] =>
      if alleleExists gene a then .ok [a, a]
      else .error ("Allele '" ++ a ++ "' is not defined for gene '" ++ gene.id ++ "'")
  | [a, b] =>
      if alleleExists gene a then
        if alleleExists gene b then .ok [a, b]
        else .error ("Allele '" ++ b ++ "' is not defined for gene '" ++ gene.id ++ "'")
      else .error ("Allele '" ++ a ++ "' is not defined for gene '" ++ gene.id ++ "'")
  | _ => .error ("Autosomal gene '" ++ gene.id ++ "' must have one or two alleles.")

/-- Haploid fill-in/validation used for male X-linked and male Y-linked genes. -/
def ensureOneAllele (gene : GeneDefinition) (tooMany : String) : Genotype → Except String Genotype
  | [] => .ok [gene.defaultAlleleId]
  | [a] =>
      if alleleExists gene a then .ok [a]
      else .error ("Allele '" ++ a ++ "' is not defined for gene '" ++ gene.id ++ "'")
  | _ => .error tooMany

/-- `GenotypeNormalizer::normalize` / `Engine::normalizedGenotype`. -/
def normalizedGenotype (gene : GeneDefinition) (provided : Genotype) (sex : Sex) :
    Except String Genotype :=
  match gene.chromosome with
  | .Autosomal => ensureTwoAlleles gene provided
  | .X =>
      match sex with
      | .Female => ensureTwoAlleles gene provided
      | .Male =>
          ensureOneAllele gene
            ("Male individual must supply exactly one X-linked allele for gene '" ++ gene.id ++ "'")
            provided
  | .Y =>
      match sex with
      | .Female =>
          if provided.isEmpty then .ok []
          else .error ("Female individuals cannot carry Y-linked gene '" ++ gene.id ++ "'")
      | .Male =>
          ensureOneAllele gene
            ("Y-linked gene '" ++ gene.id ++ "' must have exactly one allele.")
            provided

example :
    normalizedGenotype
      { id := "g", alleles := [{ id := "A" }, { id := "a" }], defaultAlleleId := "A" }
      [] .Female = .ok ["A", "A"] := by decide

example :
    normalizedGenotype
      { id := "g", chromosome := .Y, alleles := [{ id := "y" }], defaultAlleleId := "y" }
      [] .Female = .ok [] := by decide

/-! ### Engine construction (`Engine::Engine`) -/

/-- Incremental duplicate detection, mirroring the constructor's
`alleleMap.emplace` loop: the first id already seen is reported. -/
def firstDupId (seen : List String) : List String → Option String
  | [] => none
  | x :: rest => if x ∈ seen then some x else firstDupId (x :: seen) rest

/-- One iteration of the `Engine` constructor's gene loop.  The
constructor takes `auto& alleleMap = alleleIndex_[gene.id]` — an inner
allele map looked up *by gene id*, so two gene records sharing an id
share one map.  The `index` argument models `alleleIndex_` as the list
of allele ids already inserted per gene id: an empty allele list is
fatal; each allele id is emplaced in turn and a collision (with an
earlier allele of this record *or* of an earlier same-id record) is
fatal; an empty default allele id is replaced by the first allele's id;
a non-empty default id must be present in the shared map (which at this
point also holds this record's own alleles). -/
def initGeneWith (index : List (String × List String)) (gene : GeneDefinition) :
    Except String (GeneDefinition × List (String × List String)) :=
  match gene.alleles with
  | [] => .error ("Gene '" ++ gene.id ++ "' must define at least one allele.")
  | first :: _ =>
      let seen := (lookupA index gene.id).getD []
      match firstDupId seen (gene.alleles.map AlleleDefinition.id) with
      | some dup =>
          .error ("Duplicate allele id '" ++ dup ++ "' in gene '" ++ gene.id ++ "'")
      | none =>
          let merged := seen ++ gene.alleles.map AlleleDefinition.id
          let index' := setEntry index gene.id merged
          if gene.defaultAlleleId = "" then
            .ok ({ gene with defaultAlleleId := first.id }, index')
          else if gene.defaultAlleleId ∈ merged then .ok (gene, index')
          else
            .error ("Gene '" ++ gene.id ++ "' default allele '" ++
              gene.defaultAlleleId ++ "' is not defined.")

/-- The `Engine` constructor's gene loop: processes the genes in order,
threading the shared `alleleIndex_` state, and stops at the first
configuration error. -/
def engineInitLoop : List GeneDefinition → List (String × List String) →
    Except String (List GeneDefinition)
  | [], _ => .ok []
  | gene :: rest, index =>
      match initGeneWith index gene with
      | .error e => .error e
      | .ok p => (engineInitLoop rest p.2).map (p.1 :: ·)

/-- `Engine::Engine(EngineConfig)`: validates every gene (in order,
against the shared per-gene-id allele index) and returns the
configuration with defaults filled in, or the first configuration
error. -/
def engineInit (config : EngineConfig) : Except String EngineConfig :=
  (engineInitLoop config.genes []).map (fun gs => { config with genes := gs })

/-! ### Individual creation (`Engine::createIndividual`) -/

/-- The gene loop of `createIndividual`: normalizes the supplied
genotype of every configured gene (missing entries count as empty) and
stores the results keyed by gene id. -/
def buildGenotype (sex : Sex) (provided : List (String × Genotype)) :
    List GeneDefinition → List (String × Genotype) → Except String (List (String × Genotype))
  | [], acc => .ok acc
  | gene :: rest, acc =>
      match normalizedGenotype gene ((lookupA provided gene.id).getD []) sex with
      | .error e => .error e
      | .ok ng => buildGenotype sex provided rest (setEntry acc gene.id ng)

/-- `Engine::createIndividual`. -/
def createIndividual (config : EngineConfig) (sex : Sex)
    (provided : List (String × Genotype)) : Except String Individual :=
  (buildGenotype sex provided config.genes []).map
    (fun entries => { sex := sex, genotype := entries })

/-! ### Mating (`Engine::mate`) -/

structure Gamete where
  alleles : List (String × String) := []
  carriesX : Bool := false
  carriesY : Bool := false
deriving DecidableEq, Repr

/-- The child-genotype loop of `Engine::mate`. -/
def buildChildGenotype (maternal paternal : Gamete) (childSex : Sex) :
    List GeneDefinition → List (String × Genotype) → Except String (List (String × Genotype))
  | [], acc => .ok acc
  | gene :: rest, acc =>
      match gene.chromosome with
      | .Autosomal =>
          match lookupA maternal.alleles gene.id, lookupA paternal.alleles gene.id with
          | some m, some p =>
              buildChildGenotype maternal paternal childSex rest (setEntry acc gene.id [m, p])
          | _, _ => .error ("Missing autosomal allele in gamete for gene " ++ gene.id)
      | .X =>
          match lookupA maternal.alleles gene.id with
          | none => .error ("Maternal gamete missing X-linked gene " ++ gene.id)
          | some m =>
              match childSex with
              | .Female =>
                  match lookupA paternal.alleles gene.id with
                  | none =>
                      .error ("Paternal gamete missing X-linked gene " ++ gene.id ++
                        " for female child")
                  | some p =>
                      buildChildGenotype maternal paternal childSex rest
                        (setEntry acc gene.id [m, p])
              | .Male =>
                  buildChildGenotype maternal paternal childSex rest (setEntry acc gene.id [m])
      | .Y =>
          match childSex with
          | .Male =>
              match lookupA paternal.alleles gene.id with
              | none =>
                  .error ("Paternal gamete missing Y-linked gene " ++ gene.id ++
                    " for male child")
              | some p =>
                  buildChildGenotype maternal paternal childSex rest (setEntry acc gene.id [p])
          | .Female => buildChildGenotype maternal paternal childSex rest acc

/-- `Engine::mate`, parametrized over the two gametes that the C++ code
draws stochastically (`generateGamete` with a fresh `mt19937`); every
random draw yields some pair of gametes, so properties proved for all
gamete pairs hold for every mating outcome.  The child is male exactly
when the paternal gamete carries the Y determinant. -/
def mateWith (config : EngineConfig) (maternal paternal : Gamete) : Except String Individual :=
  let childSex := if paternal.carriesY then Sex.Male else Sex.Female
  (buildChildGenotype maternal paternal childSex config.genes []).map
    (fun entries => { sex := childSex, genotype := entries })

/-! ### Phenotype expression (`Engine::expressPhenotype` and its helper stages) -/

/-- `TraitExpression::add`: a non-empty descriptor appends only the
descriptor; an empty descriptor adds the magnitude. -/
def TraitExpression.add (e : TraitExpression) (value : ℚ) (descriptor : String) :
    TraitExpression :=
  if descriptor = "" then { e with quantitative := e.quantitative + value }
  else { e with descriptors := e.descriptors ++ [descriptor] }

/-- Separator join used throughout (`front`, then `sep + next` for each). -/
def joinSep (sep : String) : List String → String
  | [] => ""
  | [d] => d
  | d :: rest => d ++ sep ++ joinSep sep rest

/-- Rendering of a quantitative value (`std::ostringstream << double`).
No claim observes the textual form of a number, so the rational's
canonical rendering stands in for the C++ formatting. -/
def ratText (q : ℚ) : String := toString q

/-- `TraitExpression::summary`. -/
def TraitExpression.summary (e : TraitExpression) : String :=
  if e.descriptors = [] then ratText e.quantitative else joinSep ", " e.descriptors

/-- Append if not already present (order-preserving dedup step). -/
def pushUnique (acc : List String) (x : String) : List String :=
  if x ∈ acc then acc else acc ++ [x]

/-- Lexicographic comparison of character lists, the order of
`std::string::operator<` (byte order; identical to code-point order on
the ASCII strings this program handles). -/
def charListLt : List Char → List Char → Bool
  | [], [] => false
  | [], _ :: _ => true
  | _ :: _, [] => false
  | c :: cs, d :: ds =>
      if c.toNat < d.toNat then true
      else if d.toNat < c.toNat then false
      else charListLt cs ds

/-- `a < b` on `std::string`. -/
def strLtB (a b : String) : Bool := charListLt a.data b.data

/-- Insertion into a `<`-sorted list, agreeing with `std::sort` on
lists of distinct strings. -/
def insertSorted (s : String) : List String → List String
  | [] => [s]
  | x :: rest => if strLtB s x then s :: x :: rest else x :: insertSorted s rest

def sortStrings : List String → List String
  | [] => []
  | x :: rest => insertSorted x (sortStrings rest)

/-- `descriptor.size() == 1 && std::isalpha(descriptor[0])`. -/
def isSingleAlpha (d : String) : Bool :=
  match d.data with
  | [c] => c.isAlpha
  | _ => false

/-- The anonymous-namespace `combineDescriptors` of `Engine.cpp`. -/
def combineDescriptors (descriptors : List String) : String :=
  let u := descriptors.foldl
    (fun acc d => if d = "" then acc else pushUnique acc d) []
  match u with
  | [] => ""
  | [d] => d
  | _ =>
      if u.all isSingleAlpha then String.join (sortStrings u)
      else joinSep ", " u

/-- `phenotype.traits[traitId]` access followed by a mutation. -/
def phUpd (ph : Phenotype) (traitId : String) (f : TraitExpression → TraitExpression) :
    Phenotype :=
  updateA {} ph traitId f

/-- The `applyEffects` lambda of `expressPhenotype`. -/
def applyEffects (ph : Phenotype) (al : AlleleDefinition) : Phenotype :=
  al.effects.foldl
    (fun ph eff => phUpd ph eff.traitId (fun e => e.add eff.magnitude eff.description)) ph

/-- `Engine::requireAllele` (the per-gene allele index maps each id to
the first allele carrying it). -/
def requireAllele (gene : GeneDefinition) (alleleId : String) :
    Except String AlleleDefinition :=
  match gene.alleles.find? (fun a => a.id = alleleId) with
  | some a => .ok a
  | none =>
      .error ("Allele '" ++ alleleId ++ "' is not defined for gene '" ++ gene.id ++ "'")

/-- Complete-dominance resolution: identical ids or the strictly higher
rank wins; equal ranks fall back to the first allele. -/
def completeResolve (r1 r2 : AlleleDefinition) : AlleleDefinition :=
  if r1.id = r2.id then r1
  else if r1.dominanceRank > r2.dominanceRank then r1
  else if r2.dominanceRank > r1.dominanceRank then r2
  else r1

/-- The codominant equal-rank branch: group both alleles' effects by
trait, average magnitudes, merge descriptors via `combineDescriptors`. -/
def codominantCombine (ph : Phenotype) (r1 r2 : AlleleDefinition) : Phenotype :=
  let allEffects := r1.effects ++ r2.effects
  let traitIds := allEffects.foldl (fun acc e => pushUnique acc e.traitId) []
  traitIds.foldl
    (fun ph t =>
      let effects := allEffects.filter (fun e => e.traitId = t)
      let magnitudeSum := (effects.map AlleleEffect.magnitude).sum
      let descriptors := (effects.filter (fun e => e.description ≠ "")).map
        AlleleEffect.description
      phUpd ph t (fun expr =>
        let q :=
          if descriptors = [] ∧ effects.length ≠ 0 then
            expr.quantitative + magnitudeSum / (effects.length : ℚ)
          else 0
        let d := combineDescriptors descriptors
        { quantitative := q, descriptors := if d = "" then [] else [d] }))
    ph

/-- `blend(desc1, desc2)` synthesis for incomplete dominance (either
descriptor may be empty). -/
def mkBlendDesc (d1 d2 : String) : String :=
  if d1 ≠ "" ∨ d2 ≠ "" then
    "blend(" ++ d1 ++ (if d2 ≠ "" then ", " ++ d2 else "") ++ ")"
  else ""

/-- `std::unordered_map::emplace` keyed by trait id keeps the first
effect per trait. -/
def firstEffectPerTrait (effects : List AlleleEffect) : List (String × AlleleEffect) :=
  effects.foldl
    (fun acc e => if (lookupA acc e.traitId).isSome then acc else acc ++ [(e.traitId, e)]) []

/-- The incomplete-dominance heterozygote branch. -/
def incompleteCombine (ph : Phenotype) (gene : GeneDefinition) (r1 r2 : AlleleDefinition) :
    Phenotype :=
  let map1 := firstEffectPerTrait r1.effects
  let map2 := firstEffectPerTrait r2.effects
  let ph := map1.foldl
    (fun ph kv =>
      let fe := kv.2
      let se? := lookupA map2 kv.1
      let secondMag := match se? with | some se => se.magnitude | none => 0
      let blended := gene.incompleteBlendWeight * fe.magnitude +
        (1 - gene.incompleteBlendWeight) * secondMag
      let desc :=
        if fe.intermediateDescriptor ≠ "" then fe.intermediateDescriptor
        else
          match se? with
          | some se =>
              if se.intermediateDescriptor ≠ "" then se.intermediateDescriptor
              else mkBlendDesc fe.description se.description
          | none => mkBlendDesc fe.description ""
      phUpd ph kv.1 (fun e => e.add blended desc))
    ph
  map2.foldl
    (fun ph kv =>
      if (lookupA map1 kv.1).isSome then ph
      else
        let eff := kv.2
        let blended := (1 - gene.incompleteBlendWeight) * eff.magnitude
        let desc :=
          if eff.intermediateDescriptor ≠ "" then eff.intermediateDescriptor
          else if eff.description ≠ "" then "blend(" ++ eff.description ++ ")"
          else ""
        phUpd ph kv.1 (fun e => e.add blended desc))
    ph

/-- The per-gene body of the dominance-resolution loop in
`expressPhenotype`: missing or empty genotype entries are skipped;
`allele1` is the genotype's front, `allele2` its back. -/
def dominanceGene (ind : Individual) (ph : Phenotype) (gene : GeneDefinition) :
    Except String Phenotype :=
  match lookupA ind.genotype gene.id with
  | none => .ok ph
  | some genotype =>
      match genotype with
      | [] => .ok ph
      | a1 :: _ =>
          let allele2 := (genotype.getLast?).getD a1
          match requireAllele gene a1 with
          | .error e => .error e
          | .ok r1 =>
              match requireAllele gene allele2 with
              | .error e => .error e
              | .ok r2 =>
                  .ok
                    (match gene.dominance with
                    | .Complete => applyEffects ph (completeResolve r1 r2)
                    | .Codominant =>
                        if r1.id = r2.id then applyEffects ph r1
                        else if r1.dominanceRank ≠ r2.dominanceRank then
                          applyEffects ph
                            (if r1.dominanceRank > r2.dominanceRank then r1 else r2)
                        else codominantCombine ph r1 r2
                    | .Incomplete =>
                        if r1.id = r2.id then applyEffects ph r1
                        else incompleteCombine ph gene r1 r2)

/-- The whole per-gene dominance-resolution loop of `expressPhenotype`. -/
def dominanceLoop (ind : Individual) :
    List GeneDefinition → Phenotype → Except String Phenotype
  | [], ph => .ok ph
  | gene :: rest, ph =>
      match dominanceGene ind ph gene with
      | .error e => .error e
      | .ok ph' => dominanceLoop ind rest ph'

/-- `Engine::applyEpistasis`. -/
def applyEpistasis (config : EngineConfig) (ind : Individual) (ph : Phenotype) : Phenotype :=
  config.epistasis.foldl
    (fun ph rule =>
      match lookupA ind.genotype rule.regulatorGene with
      | none => ph
      | some genotype =>
          let conditionMet :=
            match rule.requirement with
            | .Present => genotype.any (fun a => a == rule.triggeringAllele)
            | .Homozygous =>
                match genotype with
                | [a, b] => a == rule.triggeringAllele && b == rule.triggeringAllele
                | _ => false
            | .Heterozygous =>
                match genotype with
                | [a, b] => xor (a == rule.triggeringAllele) (b == rule.triggeringAllele)
                | _ => false
            | .Hemizygous =>
                match genotype with
                | [a] => a == rule.triggeringAllele
                | _ => false
          if conditionMet then
            phUpd ph rule.targetTrait (fun expr =>
              match rule.action with
              | .MaskTrait =>
                  { quantitative := rule.overrideValue,
                    descriptors :=
                      if rule.overrideDescription = "" then []
                      else [rule.overrideDescription] }
              | .ModifyTraitValue =>
                  { quantitative := expr.quantitative * rule.modifier,
                    descriptors := expr.descriptors ++
                      (if rule.overrideDescription = "" then []
                       else [rule.overrideDescription]) })
          else ph)
    ph

/-- `stripNonAlnum` of `Engine.cpp` (ASCII `std::isalnum`). -/
def stripNonAlnum (s : String) : String := ⟨s.data.filter Char.isAlphanum⟩

/-- `toUpperCopy` of `Engine.cpp` (ASCII `std::toupper`). -/
def toUpperCopy (s : String) : String := s.map Char.toUpper

/-- `Engine::applyPhenotypeOverrides`: the hard-coded coat-color
domain-override stage keyed on the literal gene ids `white_masking`,
`black_orange` and `dilute`. -/
def applyPhenotypeOverrides (config : EngineConfig) (ind : Individual) (ph : Phenotype) :
    Phenotype :=
  let whiteMask := config.genes.find? (fun g => g.id = "white_masking")
  let blackOrange := config.genes.find? (fun g => g.id = "black_orange")
  let dilute := config.genes.find? (fun g => g.id = "dilute")
  let findGenotype : Option GeneDefinition → Option Genotype := fun g? =>
    match g? with
    | none => none
    | some g => lookupA ind.genotype g.id
  let wg := findGenotype whiteMask
  let bg := findGenotype blackOrange
  let dg := findGenotype dilute
  if wg = none ∧ bg = none ∧ dg = none then ph
  else
    let hasDominantWhite :=
      match wg with
      | some g =>
          g.any (fun allele =>
            let cleaned := stripNonAlnum allele
            cleaned == "W" ||
              (let n := toUpperCopy cleaned
               n == "WHITE" || n == "WMASK"))
      | none => false
    let isDilute :=
      match dg with
      | some g => g.length == 2 && g.all (fun a => stripNonAlnum a == "d")
      | none => false
    let coatDescriptor :=
      if hasDominantWhite then "Solid White"
      else
        match bg with
        | some g =>
            if g ≠ [] then
              let hasBlack := g.any (fun a =>
                let u := toUpperCopy (stripNonAlnum a)
                u == "XB" || u == "B")
              let hasOrange := g.any (fun a =>
                let u := toUpperCopy (stripNonAlnum a)
                u == "XO" || u == "O")
              match ind.sex with
              | .Female =>
                  if hasBlack && hasOrange then
                    if isDilute then "Dilute Tortoiseshell Female" else "Tortoiseshell Female"
                  else if hasBlack then
                    if isDilute then "Blue Female" else "Black Female"
                  else if hasOrange then
                    if isDilute then "Cream Female" else "Orange Female"
                  else ""
              | .Male =>
                  if hasBlack then
                    if isDilute then "Blue Male" else "Black Male"
                  else if hasOrange then
                    if isDilute then "Cream Male" else "Orange Male"
                  else ""
            else ""
        | none => ""
    let ph := phUpd ph "coat_color" (fun _ =>
      { quantitative := 0,
        descriptors := if coatDescriptor = "" then [] else [coatDescriptor] })
    let pigmentDescriptors :=
      match dg with
      | some g => if g ≠ [] then [if isDilute then "Dilute" else "Dense"] else []
      | none => []
    phUpd ph "pigment_intensity" (fun _ =>
      { quantitative := 0, descriptors := pigmentDescriptors })

/-- `gatherTraitIds` of `Engine.cpp`. -/
def gatherTraitIds (gene : GeneDefinition) : List String :=
  let traitIds := gene.alleles.foldl
    (fun acc allele =>
      allele.effects.foldl
        (fun acc eff => if eff.traitId = "" then acc else pushUnique acc eff.traitId) acc)
    []
  if traitIds = [] then [gene.id] else traitIds

/-- `linkageMap_`: linkage-group members in configuration order,
groups listed in first-appearance order. -/
def linkageGroupsOf (config : EngineConfig) : List (Nat × List GeneDefinition) :=
  config.genes.foldl
    (fun acc gene =>
      match gene.linkageGroup with
      | none => acc
      | some gid => updateA [] acc gid (fun gs => gs ++ [gene]))
    []

/-- `linkageTraitIds_`. -/
def linkageTraitIdsOf (config : EngineConfig) : List (Nat × List String) :=
  config.genes.foldl
    (fun acc gene =>
      match gene.linkageGroup with
      | none => acc
      | some gid => updateA [] acc gid (fun ts => (gatherTraitIds gene).foldl pushUnique ts))
    []

/-- The `"/"` join of a trait's multiple descriptors (exact loop shape:
no leading separator while the accumulator is still empty). -/
def joinSlash (ds : List String) : String :=
  ds.foldl (fun piece d => if piece ≠ "" then piece ++ "/" ++ d else piece ++ d) ""

/-- `Engine::applyLinkageTraits`. -/
def applyLinkageTraits (config : EngineConfig) (ph : Phenotype) : Phenotype :=
  (linkageGroupsOf config).foldl
    (fun ph entry =>
      if entry.2.length < 2 then ph
      else
        let traitIds := (lookupA (linkageTraitIdsOf config) entry.1).getD []
        if traitIds = [] then ph
        else
          let pieces := traitIds.foldl
            (fun (acc : List (String × String)) traitId =>
              match lookupA ph traitId with
              | none => acc
              | some expr =>
                  let piece :=
                    match expr.descriptors with
                    | [] => expr.summary
                    | [d] => d
                    | ds => joinSlash ds
                  acc ++ [(traitId, piece)])
            []
          if pieces = [] then ph
          else
            let combinedDescriptor := joinSep ", " (pieces.map Prod.snd)
            let processed := pieces.map Prod.fst
            let combined0 := joinSep "_" processed
            let combinedTraitId :=
              if combined0 = "" then "linkage_group_" ++ toString entry.1 else combined0
            let ph := ph.filter (fun kv => decide (kv.1 ∉ processed))
            phUpd ph combinedTraitId
              (fun _ => { quantitative := 0, descriptors := [combinedDescriptor] }))
    ph

/-- `Engine::expressPhenotype`: per-gene dominance resolution, then —
in this order — the domain override stage, the epistasis stage, and
linkage-group compositing. -/
def expressPhenotype (config : EngineConfig) (ind : Individual) : Except String Phenotype :=
  match dominanceLoop ind config.genes [] with
  | .error e => .error e
  | .ok ph =>
      .ok (applyLinkageTraits config (applyEpistasis config ind
        (applyPhenotypeOverrides config ind ph)))

/-- The modifier chain in the order §4.4 of the spec lists it (epistasis
first, then the domain override stage, then linkage compositing), for
comparison against the implemented order. -/
def specOrderPipeline (config : EngineConfig) (ind : Individual) : Except String Phenotype :=
  match dominanceLoop ind config.genes [] with
  | .error e => .error e
  | .ok ph =>
      .ok (applyLinkageTraits config (applyPhenotypeOverrides config ind
        (applyEpistasis config ind ph)))

/-- Modelled from the spec (§4.5, `genotypesToPhenotypes`): materialize
a throwaway single-gene Individual carrying the given genotype, run it
through the §4.3–4.4 `expressPhenotype` pipeline, and read the
resulting canonical phenotype label (the summaries of the expressed
traits). -/
def specPipelineLabel (gene : GeneDefinition) (genotype : Genotype) : String :=
  match expressPhenotype { genes := [gene], epistasis := [] }
      { sex := .Female, genotype := [(gene.id, genotype)] } with
  | .error _ => "Unknown"
  | .ok ph => joinSep "; " (ph.map (fun kv => kv.2.summary))

/-! ### Exact calculator (`MendelianCalculator.cpp`) -/

/-- `MendelianCalculator::getGameteProbabilities`. -/
def getGameteProbabilities (gene : GeneDefinition) (parentGenotype : Genotype)
    (parentSex : Sex) : ProbMap :=
  match gene.chromosome with
  | .Autosomal =>
      match parentGenotype with
      | [a, b] => addProb (addProb [] a (1/2)) b (1/2)
      | [a] => setEntry [] a 1
      | _ => []
  | .X =>
      match parentSex with
      | .Female =>
          match parentGenotype with
          | a :: b :: _ => addProb (addProb [] a (1/2)) b (1/2)
          | [a] => setEntry [] a 1
          | [] => []
      | .Male =>
          match parentGenotype with
          | a :: _ => setEntry [] a 1
          | [] => []
  | .Y =>
      match parentSex with
      | .Male =>
          match parentGenotype with
          | a :: _ => setEntry [] a 1
          | [] => []
      | .Female => []

/-- The rank-search loop of `normalizeGenotypeString` (the last
matching allele wins, and an absent id leaves rank 0). -/
def rankLookup (alleles : List AlleleDefinition) (a : String) : Option Int :=
  alleles.foldl (fun acc al => if al.id = a then some al.dominanceRank else acc) none

/-- `a <= b` on `std::string` (lexicographic). -/
def strLe (a b : String) : Bool := !(strLtB b a)

/-- `MendelianCalculator::normalizeGenotypeString`: canonical two-allele
label, ordered by descending dominance rank, ties alphabetical. -/
def normalizeGenotypeString (gene : GeneDefinition) (allele1 allele2 : String) : String :=
  match rankLookup gene.alleles allele1, rankLookup gene.alleles allele2 with
  | none, none =>
      if strLe allele1 allele2 then allele1 ++ allele2 else allele2 ++ allele1
  | r1?, r2? =>
      let rank1 := r1?.getD 0
      let rank2 := r2?.getD 0
      if rank1 > rank2 then allele1 ++ allele2
      else if rank2 > rank1 then allele2 ++ allele1
      else if strLe allele1 allele2 then allele1 ++ allele2 else allele2 ++ allele1

/-- `MendelianCalculator::combineGametes`: Punnett product bucketed by
canonical genotype label. -/
def combineGametes (gene : GeneDefinition) (gametes1 gametes2 : ProbMap) : ProbMap :=
  gametes1.foldl
    (fun dist kv1 =>
      gametes2.foldl
        (fun dist kv2 =>
          addProb dist (normalizeGenotypeString gene kv1.1 kv2.1) (kv1.2 * kv2.2))
        dist)
    []

/-- `GenotypeDistribution::normalize` / `PhenotypeDistribution::normalize`:
divide by the total if it is positive, otherwise leave unchanged. -/
def normalizeDist (m : ProbMap) : ProbMap :=
  let total := probSum m
  if 0 < total then m.map (fun kv => (kv.1, kv.2 / total)) else m

/-- `toPercentages`. -/
def toPercentagesDist (m : ProbMap) : ProbMap :=
  m.map (fun kv => (kv.1, kv.2 * 100))

/-- `std::string::find` on character lists: position of the first
occurrence of `needle`. -/
def findSub (needle : List Char) : List Char → Option Nat
  | [] => if needle.isEmpty then some 0 else none
  | c :: rest =>
      if needle.isPrefixOf (c :: rest) then some 0
      else (findSub needle rest).map (· + 1)

/-- `std::string::erase(pos, len)`. -/
def eraseChunk (l : List Char) (pos len : Nat) : List Char :=
  l.take pos ++ l.drop (pos + len)

/-- The first matching loop of `parseGenotypeString` (breaks as soon as
the remaining string is exhausted). -/
def parseLoop : List AlleleDefinition → List String → List Char → (List String × List Char)
  | [], geno, rem => (geno, rem)
  | al :: rest, geno, rem =>
      match findSub al.id.data rem with
      | some pos =>
          let geno := geno ++ [al.id]
          let rem := eraseChunk rem pos al.id.data.length
          if rem.isEmpty then (geno, rem) else parseLoop rest geno rem
      | none => parseLoop rest geno rem

/-- `MendelianCalculator::parseGenotypeString`. -/
def parseGenotypeString (gene : GeneDefinition) (genotypeStr : String) : Genotype :=
  if genotypeStr = "" then []
  else
    let p := parseLoop gene.alleles [] genotypeStr.data
    if p.1.length = 1 ∧ p.2 ≠ [] then
      match gene.alleles.find? (fun al => al.id.data = p.2) with
      | some al => p.1 ++ [al.id]
      | none => p.1
    else p.1

/-- `MendelianCalculator::findAllele` (first match). -/
def findAllele (gene : GeneDefinition) (alleleId : String) : Option AlleleDefinition :=
  gene.alleles.find? (fun a => a.id = alleleId)

/-- The highest-rank search loop shared by the Complete and Incomplete
branches of `getPhenotypeForGenotype` (`maxRank` starts at −1). -/
def maxRankAllele (gene : GeneDefinition) (genotype : Genotype) : Option AlleleDefinition :=
  (genotype.foldl
    (fun (acc : Option AlleleDefinition × Int) aId =>
      match findAllele gene aId with
      | some al => if al.dominanceRank > acc.2 then (some al, al.dominanceRank) else acc
      | none => acc)
    (none, -1)).1

/-- The bottom fallback of `getPhenotypeForGenotype`: the first
allele's first effect description, else `"Unknown"`. -/
def fallbackLabel (gene : GeneDefinition) (genotype : Genotype) : String :=
  match genotype.head? with
  | some a0 =>
      match findAllele gene a0 with
      | some al =>
          match al.effects.head? with
          | some e => e.description
          | none => "Unknown"
      | none => "Unknown"
  | none => "Unknown"

/-- `MendelianCalculator::getPhenotypeForGenotype`: the calculator's own
per-genotype labeling routine (it does not call `expressPhenotype`). -/
def getPhenotypeForGenotype (gene : GeneDefinition) (genotype : Genotype) : String :=
  if genotype = [] then "Unknown"
  else
    match gene.dominance with
    | .Complete =>
        match maxRankAllele gene genotype with
        | some dom =>
            match dom.effects.head? with
            | some e => e.description
            | none => fallbackLabel gene genotype
        | none => fallbackLabel gene genotype
    | .Codominant =>
        let descriptions := genotype.foldl
          (fun acc aId =>
            match findAllele gene aId with
            | some al =>
                match al.effects.head? with
                | some e => if al.dominanceRank > 0 then acc ++ [e.description] else acc
                | none => acc
            | none => acc)
          []
        let uniqueDescriptions := descriptions.foldl pushUnique []
        match uniqueDescriptions with
        | [] =>
            match findAllele gene (genotype.headD "") with
            | some al =>
                match al.effects.head? with
                | some e => e.description
                | none => fallbackLabel gene genotype
            | none => fallbackLabel gene genotype
        | [d] => d
        | ds => joinSep ", " ds
    | .Incomplete =>
        let inter? : Option String :=
          match genotype with
          | [g0, g1] =>
              if g0 = g1 then none
              else
                let i1 : Option String :=
                  match findAllele gene g0 with
                  | some al =>
                      match al.effects.head? with
                      | some e =>
                          if e.intermediateDescriptor ≠ "" then
                            some e.intermediateDescriptor
                          else none
                      | none => none
                  | none => none
                match i1 with
                | some d => some d
                | none =>
                    match findAllele gene g1 with
                    | some al =>
                        match al.effects.head? with
                        | some e =>
                            if e.intermediateDescriptor ≠ "" then
                              some e.intermediateDescriptor
                            else none
                        | none => none
                    | none => none
          | _ => none
        match inter? with
        | some d => d
        | none =>
            match maxRankAllele gene genotype with
            | some dom =>
                match dom.effects.head? with
                | some e => e.description
                | none => fallbackLabel gene genotype
            | none => fallbackLabel gene genotype

/-- `MendelianCalculator::genotypesToPhenotypes`: accumulate each
genotype bucket's probability under the label computed by
`getPhenotypeForGenotype` on the re-parsed genotype. -/
def genotypesToPhenotypes (gene : GeneDefinition) (genotypes : ProbMap) : ProbMap :=
  genotypes.foldl
    (fun dist kv =>
      addProb dist (getPhenotypeForGenotype gene (parseGenotypeString gene kv.1)) kv.2)
    []

structure TraitResult where
  genotypic_ratios : ProbMap
  phenotypic_ratios : ProbMap
deriving DecidableEq, Repr

/-- `MendelianCalculator::calculateSingleGene`. -/
def calculateSingleGene (gene : GeneDefinition) (parent1Genotype parent2Genotype : Genotype)
    (parent1Sex parent2Sex : Sex) : TraitResult :=
  let gametes1 := getGameteProbabilities gene parent1Genotype parent1Sex
  let gametes2 := getGameteProbabilities gene parent2Genotype parent2Sex
  let genotypes := normalizeDist (combineGametes gene gametes1 gametes2)
  let phenotypes := normalizeDist (genotypesToPhenotypes gene genotypes)
  { genotypic_ratios := genotypes, phenotypic_ratios := phenotypes }

/-- The loop body of `calculateCross`: look up the gene definition (a
linear scan of the configuration, skipped when absent), look up both
parents' genotype entries (skipped when either is absent), compute the
single-gene result, optionally convert to percentages, and store it. -/
def crossStep (config : EngineConfig) (parent1 parent2 : Individual)
    (asPercentages : Bool) (results : List (String × TraitResult)) (geneId : String) :
    List (String × TraitResult) :=
  match config.genes.find? (fun g => g.id = geneId) with
  | none => results
  | some geneDef =>
      match lookupA parent1.genotype geneId, lookupA parent2.genotype geneId with
      | some g1, some g2 =>
          let result := calculateSingleGene geneDef g1 g2 parent1.sex parent2.sex
          let result :=
            if asPercentages then
              { genotypic_ratios := toPercentagesDist result.genotypic_ratios,
                phenotypic_ratios := toPercentagesDist result.phenotypic_ratios }
            else result
          setEntry results geneId result
      | _, _ => results

/-- The value `calculateCross` stores for a requested gene id, when it
stores one: `none` exactly when the gene id is unknown or absent from
either parent. -/
def crossStep? (config : EngineConfig) (parent1 parent2 : Individual)
    (asPercentages : Bool) (geneId : String) : Option TraitResult :=
  match config.genes.find? (fun g => g.id = geneId) with
  | none => none
  | some geneDef =>
      match lookupA parent1.genotype geneId, lookupA parent2.genotype geneId with
      | some g1, some g2 =>
          let result := calculateSingleGene geneDef g1 g2 parent1.sex parent2.sex
          some
            (if asPercentages then
              { genotypic_ratios := toPercentagesDist result.genotypic_ratios,
                phenotypic_ratios := toPercentagesDist result.phenotypic_ratios }
            else result)
      | _, _ => none

/-- `MendelianCalculator::calculateCross`: unknown gene ids and genes
absent from either parent are skipped. -/
def calculateCross (config : EngineConfig) (parent1 parent2 : Individual)
    (geneIds : List String) (asPercentages : Bool) : List (String × TraitResult) :=
  geneIds.foldl (crossStep config parent1 parent2 asPercentages) []

/-- The recursive `generateCombinations` lambda of
`calculateJointPhenotypes`: a requested gene id missing from the
per-gene results ends the branch without adding anything. -/
def generateCombinations (individualResults : List (String × TraitResult)) :
    List String → List String → ℚ → ProbMap → ProbMap
  | [], currentPhenotypes, currentProb, joint =>
      match currentPhenotypes with
      | [] => joint
      | ds => addProb joint (joinSep " + " ds) currentProb
  | geneId :: restIds, currentPhenotypes, currentProb, joint =>
      match lookupA individualResults geneId with
      | none => joint
      | some tr =>
          tr.phenotypic_ratios.foldl
            (fun joint kv =>
              generateCombinations individualResults restIds
                (currentPhenotypes ++ [kv.1]) (currentProb * kv.2) joint)
            joint

/-- `MendelianCalculator::calculateJointPhenotypes`. -/
def calculateJointPhenotypes (config : EngineConfig) (parent1 parent2 : Individual)
    (geneIds : List String) (asPercentages : Bool) : ProbMap :=
  let individualResults := calculateCross config parent1 parent2 geneIds false
  let joint := generateCombinations individualResults geneIds [] 1 []
  if asPercentages then joint.map (fun kv => (kv.1, kv.2 * 100)) else joint

/-! ## Concrete fixtures used by witnesses and counterexamples -/

/-- A plain autosomal complete-dominance gene. -/
def geneEx : GeneDefinition :=
  { id := "g", defaultAlleleId := "A",
    alleles := [{ id := "A", dominanceRank := 1 }, { id := "a", dominanceRank := 0 }] }

/-- An X-linked gene. -/
def geneX1 : GeneDefinition :=
  { id := "gx", chromosome := .X, defaultAlleleId := "x1",
    alleles := [{ id := "x1", dominanceRank := 1 }, { id := "x2", dominanceRank := 0 }] }

/-- A Y-linked gene. -/
def geneY1 : GeneDefinition :=
  { id := "gy", chromosome := .Y, defaultAlleleId := "y",
    alleles := [{ id := "y", dominanceRank := 1, effects := [{ traitId := "yt", magnitude := 1, description := "Y" }] }] }

def cfgX : EngineConfig := { genes := [geneX1] }

def cfgY : EngineConfig := { genes := [geneY1] }

/-- The normalized female parent of `cfgY` (as `createIndividual` builds it). -/
def indYF : Individual := { sex := .Female, genotype := [("gy", [])] }

/-- The normalized male parent of `cfgY`. -/
def indYM : Individual := { sex := .Male, genotype := [("gy", ["y"])] }

/-- The ABO-blood-type gene of the repository's own Mendelian test
(`examples/test_mendelian.cpp`): codominant, A and B of equal positive
rank, recessive O; descriptors shortened to the single letters the
claim's expected labels use. -/
def aboBlood : GeneDefinition :=
  { id := "abo_blood", chromosome := .Autosomal, dominance := .Codominant,
    defaultAlleleId := "O",
    alleles := [
      { id := "A", dominanceRank := 1,
        effects := [{ traitId := "blood_type", magnitude := 1, description := "A" }] },
      { id := "B", dominanceRank := 1,
        effects := [{ traitId := "blood_type", magnitude := 1, description := "B" }] },
      { id := "O", dominanceRank := 0,
        effects := [{ traitId := "blood_type", magnitude := 0, description := "O" }] }] }

def cfgABO : EngineConfig := { genes := [aboBlood] }

def parAB : Individual := { sex := .Female, genotype := [("abo_blood", ["A", "B"])] }

def parAO : Individual := { sex := .Male, genotype := [("abo_blood", ["A", "O"])] }

/-- A gene named `white_masking` whose dominant `W` allele both feeds
the domain-override stage and triggers an epistasis rule, so that the
order of the two stages is observable. -/
def wmGene : GeneDefinition :=
  { id := "white_masking", chromosome := .Autosomal, dominance := .Complete,
    defaultAlleleId := "W",
    alleles := [{ id := "W", dominanceRank := 1, effects := [{ traitId := "coat_color", magnitude := 0, description := "White" }] }] }

def wmRule : EpistasisRule :=
  { regulatorGene := "white_masking", triggeringAllele := "W", requirement := .Present,
    action := .MaskTrait, targetTrait := "coat_color", modifier := 1,
    overrideDescription := "Masked", overrideValue := 0 }

def wmCfg : EngineConfig := { genes := [wmGene], epistasis := [wmRule] }

def wmInd : Individual := { sex := .Female, genotype := [("white_masking", ["W", "W"])] }

/-- A codominant gene with equal-rank alleles carrying the single-letter
descriptors `A` and `B`. -/
def gAB : GeneDefinition :=
  { id := "gab", chromosome := .Autosomal, dominance := .Codominant,
    defaultAlleleId := "A",
    alleles := [
      { id := "A", dominanceRank := 1,
        effects := [{ traitId := "t", magnitude := 1, description := "A" }] },
      { id := "B", dominanceRank := 1,
        effects := [{ traitId := "t", magnitude := 1, description := "B" }] }] }

/-- The eye-color gene of the repository's Mendelian test. -/
def eyeColor : GeneDefinition :=
  { id := "eye_color", chromosome := .Autosomal, dominance := .Complete,
    defaultAlleleId := "b",
    alleles := [
      { id := "B", dominanceRank := 2,
        effects := [{ traitId := "eye", magnitude := 1, description := "Brown" }] },
      { id := "b", dominanceRank := 1,
        effects := [{ traitId := "eye", magnitude := 0, description := "Blue" }] }] }

def cfgEye : EngineConfig := { genes := [eyeColor] }

/-- A gene with a duplicate allele id (invalid configuration). -/
def dupGene : GeneDefinition := { id := "g", alleles := [{ id := "a" }, { id := "a" }] }

def dupCfg : EngineConfig := { genes := [dupGene] }

def parEye1 : Individual := { sex := .Female, genotype := [("eye_color", ["B", "b"])] }

def parEye2 : Individual := { sex := .Male, genotype := [("eye_color", ["B", "b"])] }

/-! ## Map lemmas -/

theorem lookupA_setEntry_self {κ α : Type} [DecidableEq κ] (m : List (κ × α)) (k : κ)
    (v : α) : lookupA (setEntry m k v) k = some v := by
  induction m with
  | nil => simp [setEntry, lookupA]
  | cons kv rest ih =>
      obtain ⟨k', w⟩ := kv
      by_cases h : k' = k
      · simp [setEntry, h, lookupA]
      · simp [setEntry, h, lookupA, ih]

theorem lookupA_setEntry_ne {κ α : Type} [DecidableEq κ] (m : List (κ × α)) (k k' : κ)
    (v : α) (h : k' ≠ k) : lookupA (setEntry m k v) k' = lookupA m k' := by
  induction m with
  | nil =>
      have hne : k ≠ k' := Ne.symm h
      simp [setEntry, lookupA, hne]
  | cons kv rest ih =>
      obtain ⟨k0, w⟩ := kv
      by_cases h0 : k0 = k
      · subst h0
        have hne : k0 ≠ k' := Ne.symm h
        simp [setEntry, lookupA, hne]
      · by_cases h1 : k0 = k'
        · subst h1
          simp [setEntry, h, lookupA]
        · simp [setEntry, h0, lookupA, h1, ih]

theorem lookupP_addProb (m : ProbMap) (k k' : String) (p : ℚ) :
    lookupP (addProb m k p) k' = lookupP m k' + (if k = k' then p else 0) := by
  induction m with
  | nil =>
      by_cases h : k = k' <;> simp [addProb, updateA, lookupP, lookupA, h]
  | cons kv rest ih =>
      obtain ⟨k0, w⟩ := kv
      by_cases h0 : k0 = k
      · subst h0
        by_cases h1 : k0 = k' <;>
          simp [addProb, updateA, lookupP, lookupA, h1] <;> ring
      · by_cases h1 : k0 = k'
        · subst h1
          have : ¬ k = k0 := fun hh => h0 hh.symm
          simp [addProb, updateA, lookupP, lookupA, h0, this]
        · simpa [addProb, updateA, lookupP, lookupA, h0, h1] using ih

theorem probSum_addProb (m : ProbMap) (k : String) (p : ℚ) :
    probSum (addProb m k p) = probSum m + p := by
  induction m with
  | nil => simp [addProb, updateA, probSum]
  | cons kv rest ih =>
      obtain ⟨k0, w⟩ := kv
      by_cases h0 : k0 = k
      · simp [addProb, updateA, h0, probSum]
        ring
      · simp only [addProb, updateA, h0, if_false, probSum, List.map_cons, List.sum_cons]
        have := ih
        simp only [addProb, probSum] at this
        rw [this]
        ring

/-- Accumulation into a probability map adds the total weight of the
accumulated list to the map's total. -/
theorem probSum_foldl_addProb {β : Type} (f : β → String) (w : β → ℚ) (l : List β) :
    ∀ acc : ProbMap,
      probSum (l.foldl (fun d x => addProb d (f x) (w x)) acc) =
        probSum acc + (l.map w).sum := by
  induction l with
  | nil => intro acc; simp
  | cons x rest ih =>
      intro acc
      simp only [List.foldl_cons, List.map_cons, List.sum_cons]
      rw [ih, probSum_addProb]
      ring

/-- Each label's accumulated mass is the sum of the weights mapped to it. -/
theorem lookupP_foldl_addProb {β : Type} (f : β → String) (w : β → ℚ) (l : List β) :
    ∀ (acc : ProbMap) (L : String),
      lookupP (l.foldl (fun d x => addProb d (f x) (w x)) acc) L =
        lookupP acc L + ((l.filter (fun x => f x = L)).map w).sum := by
  induction l with
  | nil => intro acc L; simp
  | cons x rest ih =>
      intro acc L
      simp only [List.foldl_cons]
      rw [ih]
      rw [lookupP_addProb]
      by_cases h : f x = L
      · simp [List.filter_cons, h]
        ring
      · simp [List.filter_cons, h]

theorem probSum_map_div (m : ProbMap) (t : ℚ) :
    probSum (m.map (fun kv => (kv.1, kv.2 / t))) = probSum m / t := by
  induction m with
  | nil => simp [probSum]
  | cons kv rest ih =>
      simp only [List.map_cons, probSum, List.sum_cons] at *
      rw [ih]
      ring

theorem probSum_toPercentagesDist (m : ProbMap) :
    probSum (toPercentagesDist m) = probSum m * 100 := by
  induction m with
  | nil => simp [probSum, toPercentagesDist]
  | cons kv rest ih =>
      simp only [toPercentagesDist, List.map_cons, probSum, List.sum_cons] at *
      rw [ih]
      ring

theorem probSum_normalizeDist (m : ProbMap) (h : 0 < probSum m) :
    probSum (normalizeDist m) = 1 := by
  unfold normalizeDist
  rw [if_pos h, probSum_map_div, div_self (ne_of_gt h)]

/-! ## Lemmas about the normalizer (claims C6, C7) -/

theorem ensureTwoAlleles_idem (gene : GeneDefinition) (g r : Genotype)
    (hdef : alleleExists gene gene.defaultAlleleId = true)
    (h : ensureTwoAlleles gene g = .ok r) : ensureTwoAlleles gene r = .ok r := by
  match g with
  | [] =>
      simp only [ensureTwoAlleles, Except.ok.injEq] at h
      subst h
      simp [ensureTwoAlleles, hdef]
  | [a] =>
      by_cases ha : alleleExists gene a = true
      · simp only [ensureTwoAlleles, ha, if_true, Except.ok.injEq] at h
        subst h
        simp [ensureTwoAlleles, ha]
      · simp [ensureTwoAlleles, ha] at h
  | [a, b] =>
      by_cases ha : alleleExists gene a = true
      · by_cases hb : alleleExists gene b = true
        · simp only [ensureTwoAlleles, ha, hb, if_true, Except.ok.injEq] at h
          subst h
          simp [ensureTwoAlleles, ha, hb]
        · simp [ensureTwoAlleles, ha, hb] at h
      · simp [ensureTwoAlleles, ha] at h
  | a :: b :: c :: rest => simp [ensureTwoAlleles] at h

theorem ensureOneAllele_idem (gene : GeneDefinition) (msg : String) (g r : Genotype)
    (hdef : alleleExists gene gene.defaultAlleleId = true)
    (h : ensureOneAllele gene msg g = .ok r) : ensureOneAllele gene msg r = .ok r := by
  match g with
  | [] =>
      simp only [ensureOneAllele, Except.ok.injEq] at h
      subst h
      simp [ensureOneAllele, hdef]
  | [a] =>
      by_cases ha : alleleExists gene a = true
      · simp only [ensureOneAllele, ha, if_true, Except.ok.injEq] at h
        subst h
        simp [ensureOneAllele, ha]
      · simp [ensureOneAllele, ha] at h
  | a :: b :: rest => simp [ensureOneAllele] at h

theorem ensureTwoAlleles_error_iff (gene : GeneDefinition) (g : Genotype) :
    (∃ e, ensureTwoAlleles gene g = .error e) ↔
      2 < g.length ∨ ∃ a ∈ g, alleleExists gene a = false := by
  match g with
  | [] => simp [ensureTwoAlleles]
  | [a] =>
      by_cases ha : alleleExists gene a = true
      · simp [ensureTwoAlleles, ha]
      · simp [ensureTwoAlleles, ha]
  | [a, b] =>
      by_cases ha : alleleExists gene a = true
      · by_cases hb : alleleExists gene b = true
        · simp [ensureTwoAlleles, ha, hb]
        · simp [ensureTwoAlleles, ha, hb]
      · simp [ensureTwoAlleles, ha]
  | a :: b :: c :: rest =>
      simp [ensureTwoAlleles]

theorem ensureOneAllele_error_iff (gene : GeneDefinition) (msg : String) (g : Genotype) :
    (∃ e, ensureOneAllele gene msg g = .error e) ↔
      2 ≤ g.length ∨ ∃ a ∈ g, alleleExists gene a = false := by
  match g with
  | [] => simp [ensureOneAllele]
  | [a] =>
      by_cases ha : alleleExists gene a = true
      · simp [ensureOneAllele, ha]
      · simp [ensureOneAllele, ha]
  | a :: b :: rest =>
      simp [ensureOneAllele]

/-! ## Claim theorems -/

/-- C5: `getGameteProbabilities` assigns probability exactly 0.5 to each
allele of an autosomal heterozygous two-allele genotype, exactly 1.0 to
the allele of a single-allele (haploid-representation) genotype, and a
male parent transmits his single X-linked (or Y-linked) allele with
probability exactly 1.0. -/
theorem C5_gamete_probabilities (gene : GeneDefinition) (a b : String) (sex : Sex)
    (hab : a ≠ b) :
    (gene.chromosome = .Autosomal →
      getGameteProbabilities gene [a, b] sex = [(a, 1/2), (b, 1/2)] ∧
      getGameteProbabilities gene [a] sex = [(a, 1)]) ∧
    (gene.chromosome = .X → sex = .Male →
      getGameteProbabilities gene [a] sex = [(a, 1)]) ∧
    (gene.chromosome = .Y → sex = .Male →
      getGameteProbabilities gene [a] sex = [(a, 1)]) := by
  refine ⟨fun hc => ⟨?_, ?_⟩, fun hc hs => ?_, fun hc hs => ?_⟩
  · simp [getGameteProbabilities, hc, addProb, updateA, hab]
  · simp [getGameteProbabilities, hc, setEntry]
  · subst hs
    simp [getGameteProbabilities, hc, setEntry]
  · subst hs
    simp [getGameteProbabilities, hc, setEntry]

theorem C5_witness :
    getGameteProbabilities geneEx ["A", "a"] .Female = [("A", 1/2), ("a", 1/2)] ∧
    getGameteProbabilities geneEx ["A"] .Female = [("A", 1)] ∧
    getGameteProbabilities geneX1 ["x2"] .Male = [("x2", 1)] := by
  refine ⟨?_, ?_, ?_⟩
  · exact ((C5_gamete_probabilities geneEx "A" "a" .Female (by decide)).1 rfl).1
  · exact ((C5_gamete_probabilities geneEx "A" "a" .Female (by decide)).1 rfl).2
  · exact (C5_gamete_probabilities geneX1 "x2" "w" .Male (by decide)).2.1 rfl rfl

/-- C6: genotype normalization is idempotent: whenever
`normalizedGenotype gene g sex` succeeds with result `r`, normalizing
`r` again returns `r` unchanged (the gene's default allele exists, as
the `Engine` constructor guarantees for every configured gene). -/
theorem C6_normalize_idempotent (gene : GeneDefinition) (g r : Genotype) (sex : Sex)
    (hdef : alleleExists gene gene.defaultAlleleId = true)
    (h : normalizedGenotype gene g sex = .ok r) :
    normalizedGenotype gene r sex = .ok r := by
  cases hc : gene.chromosome with
  | Autosomal =>
      unfold normalizedGenotype at h ⊢
      rw [hc] at h ⊢
      exact ensureTwoAlleles_idem gene g r hdef h
  | X =>
      unfold normalizedGenotype at h ⊢
      rw [hc] at h ⊢
      cases sex with
      | Female => exact ensureTwoAlleles_idem gene g r hdef h
      | Male => exact ensureOneAllele_idem gene _ g r hdef h
  | Y =>
      unfold normalizedGenotype at h ⊢
      rw [hc] at h ⊢
      cases sex with
      | Female =>
          cases g with
          | nil =>
              simp only [List.isEmpty_nil, if_true, Except.ok.injEq] at h
              subst h
              simp
          | cons hd tl => simp [List.isEmpty_cons] at h
      | Male => exact ensureOneAllele_idem gene _ g r hdef h

theorem C6_witness :
    normalizedGenotype geneEx ["a"] .Female = .ok ["a", "a"] ∧
    normalizedGenotype geneEx ["a", "a"] .Female = .ok ["a", "a"] :=
  ⟨by decide, C6_normalize_idempotent geneEx ["a"] ["a", "a"] .Female (by decide) (by decide)⟩

/-- C7 (amended): normalization errors exactly when an autosomal gene
(or an X-linked gene of a female) gets more than two alleles, an
X-linked gene of a male gets two or more, a Y-linked gene of a female
gets any, a Y-linked gene of a male gets two or more, or a supplied
allele id does not exist in the gene's allele set.  In every non-error
case with zero supplied alleles the default allele is filled in
(duplicated for diploid cases) — except a Y-linked gene of a female,
whose normalized genotype is empty. -/
theorem C7_normalize_errors (gene : GeneDefinition) (g : Genotype) (sex : Sex) :
    ((∃ e, normalizedGenotype gene g sex = .error e) ↔
      ((gene.chromosome = .Autosomal ∨ (gene.chromosome = .X ∧ sex = .Female)) ∧
        2 < g.length) ∨
      (gene.chromosome = .X ∧ sex = .Male ∧ 2 ≤ g.length) ∨
      (gene.chromosome = .Y ∧ sex = .Female ∧ g ≠ []) ∨
      (gene.chromosome = .Y ∧ sex = .Male ∧ 2 ≤ g.length) ∨
      (∃ a ∈ g, alleleExists gene a = false)) ∧
    (g = [] → ∀ r, normalizedGenotype gene g sex = .ok r →
      r = (match gene.chromosome, sex with
           | .Y, .Female => ([] : Genotype)
           | .X, .Male => [gene.defaultAlleleId]
           | .Y, .Male => [gene.defaultAlleleId]
           | _, _ => [gene.defaultAlleleId, gene.defaultAlleleId])) := by
  constructor
  · cases hc : gene.chromosome with
    | Autosomal =>
        unfold normalizedGenotype
        rw [hc]
        rw [ensureTwoAlleles_error_iff]
        simp [hc]
    | X =>
        unfold normalizedGenotype
        rw [hc]
        cases sex with
        | Female =>
            rw [ensureTwoAlleles_error_iff]
            simp [hc]
        | Male =>
            rw [ensureOneAllele_error_iff]
            simp [hc]
    | Y =>
        unfold normalizedGenotype
        rw [hc]
        cases sex with
        | Female =>
            cases g with
            | nil => simp [hc]
            | cons hd tl => simp [hc]
        | Male =>
            rw [ensureOneAllele_error_iff]
            simp [hc]
  · intro hg r hr
    subst hg
    cases hc : gene.chromosome with
    | Autosomal =>
        unfold normalizedGenotype at hr
        rw [hc] at hr
        simp only [ensureTwoAlleles, Except.ok.injEq] at hr
        subst hr
        rfl
    | X =>
        unfold normalizedGenotype at hr
        rw [hc] at hr
        cases sex with
        | Female =>
            simp only [ensureTwoAlleles, Except.ok.injEq] at hr
            subst hr
            rfl
        | Male =>
            simp only [ensureOneAllele, Except.ok.injEq] at hr
            subst hr
            rfl
    | Y =>
        unfold normalizedGenotype at hr
        rw [hc] at hr
        cases sex with
        | Female =>
            simp only [List.isEmpty_nil, if_true, Except.ok.injEq] at hr
            subst hr
            rfl
        | Male =>
            simp only [ensureOneAllele, Except.ok.injEq] at hr
            subst hr
            rfl

/-- C7 counterexample: a Y-linked gene of a female with zero supplied
alleles normalizes to the empty genotype, not to the default allele
(neither haploid nor duplicated). -/
theorem C7_counterexample :
    normalizedGenotype geneY1 [] .Female = .ok [] ∧
    ([] : Genotype) ≠ [geneY1.defaultAlleleId] ∧
    ([] : Genotype) ≠ [geneY1.defaultAlleleId, geneY1.defaultAlleleId] := by decide

theorem firstDupId_none_iff (l : List String) :
    ∀ seen : List String, firstDupId seen l = none ↔ (l.Nodup ∧ ∀ x ∈ l, x ∉ seen) := by
  induction l with
  | nil => intro seen; simp [firstDupId]
  | cons x rest ih =>
      intro seen
      simp only [firstDupId]
      by_cases hx : x ∈ seen
      · rw [if_pos hx]
        constructor
        · intro h; cases h
        · rintro ⟨_, hall⟩
          exact absurd hx (hall x (List.mem_cons_self x rest))
      · rw [if_neg hx, ih]
        constructor
        · rintro ⟨hnd, hall⟩
          refine ⟨List.nodup_cons.mpr ⟨?_, hnd⟩, ?_⟩
          · intro hxr
            exact hall x hxr (List.mem_cons_self x seen)
          · intro y hy hys
            rcases List.mem_cons.mp hy with rfl | hyr
            · exact hx hys
            · exact hall y hyr (List.mem_cons_of_mem x hys)
        · rintro ⟨hnd, hall⟩
          rw [List.nodup_cons] at hnd
          refine ⟨hnd.2, ?_⟩
          intro y hyr hy
          rcases List.mem_cons.mp hy with rfl | hys
          · exact hnd.1 hyr
          · exact hall y (List.mem_cons_of_mem x hyr) hys

theorem C7_witness :
    (∃ e, normalizedGenotype geneX1 ["x1", "x2"] .Male = .error e) ∧
    (["A", "A"] : Genotype) =
      (match geneEx.chromosome, Sex.Female with
       | .Y, .Female => ([] : Genotype)
       | .X, .Male => [geneEx.defaultAlleleId]
       | .Y, .Male => [geneEx.defaultAlleleId]
       | _, _ => [geneEx.defaultAlleleId, geneEx.defaultAlleleId]) := by
  constructor
  · exact (C7_normalize_errors geneX1 ["x1", "x2"] .Male).1.mpr (by decide)
  · exact (C7_normalize_errors geneEx [] .Female).2 rfl ["A", "A"] (by decide)

theorem alleleExists_iff_mem (gene : GeneDefinition) (a : String) :
    alleleExists gene a = true ↔ a ∈ gene.alleles.map AlleleDefinition.id := by
  simp only [alleleExists, List.any_eq_true, decide_eq_true_eq, List.mem_map]

/-- A gene whose id has no entry yet in the shared allele index is
validated exactly against its own allele list (the unique-gene-id
situation), and on success it stores precisely its own allele ids under
its id. -/
theorem initGeneWith_fresh (index : List (String × List String)) (gene : GeneDefinition)
    (h : lookupA index gene.id = none) :
    ((∃ e, initGeneWith index gene = .error e) ↔
      gene.alleles = [] ∨
      ¬(gene.alleles.map AlleleDefinition.id).Nodup ∨
      (gene.defaultAlleleId ≠ "" ∧ alleleExists gene gene.defaultAlleleId = false)) ∧
    (∀ g idx', initGeneWith index gene = .ok (g, idx') →
      idx' = setEntry index gene.id (gene.alleles.map AlleleDefinition.id)) := by
  cases hal : gene.alleles with
  | nil =>
      constructor
      · simp [initGeneWith, hal]
      · intro g idx' hok
        simp [initGeneWith, hal] at hok
  | cons first rest =>
      simp only [initGeneWith, hal, h, Option.getD_none, List.nil_append]
      cases hdup : firstDupId [] ((first :: rest).map AlleleDefinition.id) with
      | some dup =>
          have hnotnd : ¬ ((first :: rest).map AlleleDefinition.id).Nodup := by
            intro hnd
            have hnone := (firstDupId_none_iff _ []).mpr ⟨hnd, by simp⟩
            rw [hnone] at hdup
            cases hdup
          constructor
          · constructor
            · intro _
              exact Or.inr (Or.inl hnotnd)
            · intro _
              exact ⟨_, rfl⟩
          · intro g idx' hok
            cases hok
      | none =>
          have hnd : ((first :: rest).map AlleleDefinition.id).Nodup :=
            ((firstDupId_none_iff _ []).mp hdup).1
          by_cases hdef : gene.defaultAlleleId = ""
          · rw [if_pos hdef]
            constructor
            · constructor
              · rintro ⟨e, he⟩
                cases he
              · rintro (h1 | h1 | ⟨h1, _⟩)
                · exact absurd h1 (List.cons_ne_nil first rest)
                · exact absurd hnd h1
                · exact absurd hdef h1
            · intro g idx' hok
              injection hok with hok1
              injection hok1 with _ hok2
              exact hok2.symm
          · rw [if_neg hdef]
            by_cases hmem : gene.defaultAlleleId ∈ (first :: rest).map AlleleDefinition.id
            · rw [if_pos hmem]
              have hex : alleleExists gene gene.defaultAlleleId = true := by
                rw [alleleExists_iff_mem, hal]
                exact hmem
              constructor
              · constructor
                · rintro ⟨e, he⟩
                  cases he
                · rintro (h1 | h1 | ⟨_, hfalse⟩)
                  · exact absurd h1 (List.cons_ne_nil first rest)
                  · exact absurd hnd h1
                  · exact absurd hfalse (by simp [hex])
              · intro g idx' hok
                injection hok with hok1
                injection hok1 with _ hok2
                exact hok2.symm
            · rw [if_neg hmem]
              have hex : alleleExists gene gene.defaultAlleleId = false := by
                rw [Bool.eq_false_iff]
                intro hT
                exact hmem (hal ▸ (alleleExists_iff_mem gene _).mp hT)
              constructor
              · constructor
                · intro _
                  exact Or.inr (Or.inr ⟨hdef, hex⟩)
                · intro _
                  exact ⟨_, rfl⟩
              · intro g idx' hok
                cases hok

/-- Over a gene list with pairwise-distinct ids, every gene meets a
fresh slot of the shared allele index, so the constructor loop errors
exactly when some gene is individually invalid. -/
theorem engineInitLoop_error_iff (genes : List GeneDefinition) :
    ∀ index : List (String × List String),
      (∀ g ∈ genes, lookupA index g.id = none) →
      (genes.map GeneDefinition.id).Nodup →
      ((∃ e, engineInitLoop genes index = .error e) ↔
        ∃ gene ∈ genes,
          gene.alleles = [] ∨
          ¬(gene.alleles.map AlleleDefinition.id).Nodup ∨
          (gene.defaultAlleleId ≠ "" ∧
            alleleExists gene gene.defaultAlleleId = false)) := by
  induction genes with
  | nil =>
      intro index _ _
      simp [engineInitLoop]
  | cons gene rest ih =>
      intro index hidx hnd
      have hfresh := initGeneWith_fresh index gene (hidx gene (List.mem_cons_self _ _))
      cases hstep : initGeneWith index gene with
      | error e =>
          have hcons : engineInitLoop (gene :: rest) index = Except.error e := by
            show (match initGeneWith index gene with
              | Except.error e => Except.error e
              | Except.ok p =>
                  Except.map (fun x => p.1 :: x) (engineInitLoop rest p.2)) =
              Except.error e
            rw [hstep]
          have hbad := hfresh.1.mp ⟨e, hstep⟩
          rw [hcons]
          constructor
          · intro _
            exact ⟨gene, List.mem_cons_self _ _, hbad⟩
          · intro _
            exact ⟨e, rfl⟩
      | ok p =>
          obtain ⟨g, index'⟩ := p
          have hcons : engineInitLoop (gene :: rest) index =
              Except.map (fun x => g :: x) (engineInitLoop rest index') := by
            show (match initGeneWith index gene with
              | Except.error e => Except.error e
              | Except.ok p =>
                  Except.map (fun x => p.1 :: x) (engineInitLoop rest p.2)) =
              Except.map (fun x => g :: x) (engineInitLoop rest index')
            rw [hstep]
          rw [hcons]
          have hgood : ¬ (gene.alleles = [] ∨
              ¬(gene.alleles.map AlleleDefinition.id).Nodup ∨
              (gene.defaultAlleleId ≠ "" ∧
                alleleExists gene gene.defaultAlleleId = false)) := by
            intro hbad
            obtain ⟨e, he⟩ := hfresh.1.mpr hbad
            rw [he] at hstep
            cases hstep
          have hnd2 := List.nodup_cons.mp hnd
          have hidxrest : ∀ g' ∈ rest, lookupA index' g'.id = none := by
            intro g' hg'
            rw [hfresh.2 g index' hstep]
            have hne : g'.id ≠ gene.id := by
              intro heq
              exact hnd2.1 (heq ▸ List.mem_map_of_mem GeneDefinition.id hg')
            rw [lookupA_setEntry_ne index gene.id g'.id _ hne]
            exact hidx g' (List.mem_cons_of_mem _ hg')
          have hih := ih index' hidxrest hnd2.2
          cases hrest : engineInitLoop rest index' with
          | error e =>
              obtain ⟨g2, hg2, hbad2⟩ := hih.mp ⟨e, hrest⟩
              constructor
              · intro _
                exact ⟨g2, List.mem_cons_of_mem _ hg2, hbad2⟩
              · intro _
                exact ⟨e, rfl⟩
          | ok gs =>
              constructor
              · rintro ⟨e, he⟩
                simp [Except.map] at he
              · rintro ⟨g2, hg2, hbad2⟩
                rcases List.mem_cons.mp hg2 with rfl | hg2r
                · exact absurd hbad2 hgood
                · obtain ⟨e, he⟩ := hih.mpr ⟨g2, hg2r, hbad2⟩
                  rw [he] at hrest
                  cases hrest

/-- C9: for a configuration with pairwise-distinct gene ids (the data
model's "id (unique)" invariant), `Engine` construction raises a
configuration error exactly when some gene has an empty allele list, a
duplicate allele id within the gene, or a default allele id (a
non-empty one; the empty string means "unset" and is auto-filled with
the first allele) that does not name an existing allele of that gene;
otherwise construction succeeds.  (The constructor threads one allele
map per gene *id*, so the embedding keeps that shared state; under
duplicate gene ids the checks couple across records, which is why the
theorem states the invariant explicitly.) -/
theorem C9_engine_construction_errors (config : EngineConfig)
    (hnodup : (config.genes.map GeneDefinition.id).Nodup) :
    (∃ e, engineInit config = .error e) ↔
      ∃ gene ∈ config.genes,
        gene.alleles = [] ∨
        ¬(gene.alleles.map AlleleDefinition.id).Nodup ∨
        (gene.defaultAlleleId ≠ "" ∧ alleleExists gene gene.defaultAlleleId = false) := by
  have h1 : (∃ e, engineInit config = .error e) ↔
      (∃ e, engineInitLoop config.genes [] = .error e) := by
    cases hm : engineInitLoop config.genes [] with
    | error e => simp [engineInit, hm, Except.map]
    | ok gs => simp [engineInit, hm, Except.map]
  rw [h1]
  exact engineInitLoop_error_iff config.genes [] (fun g _ => rfl) hnodup

theorem C9_witness :
    ∃ e, engineInit dupCfg = .error e :=
  (C9_engine_construction_errors dupCfg (by decide)).mpr
    ⟨dupGene, by simp [dupCfg], by decide⟩

theorem ensureOneAllele_len (gene : GeneDefinition) (msg : String) (g r : Genotype)
    (h : ensureOneAllele gene msg g = .ok r) : r.length ≤ 1 := by
  match g with
  | [] =>
      simp only [ensureOneAllele, Except.ok.injEq] at h
      subst h
      simp
  | [a] =>
      by_cases ha : alleleExists gene a = true
      · simp only [ensureOneAllele, ha, if_true, Except.ok.injEq] at h
        subst h
        simp
      · simp [ensureOneAllele, ha] at h
  | a :: b :: rest => simp [ensureOneAllele] at h

theorem normalizedGenotype_male_len (gene : GeneDefinition) (g r : Genotype)
    (hc : gene.chromosome = .X ∨ gene.chromosome = .Y)
    (h : normalizedGenotype gene g .Male = .ok r) : r.length ≤ 1 := by
  rcases hc with hc | hc
  · unfold normalizedGenotype at h
    rw [hc] at h
    exact ensureOneAllele_len gene _ g r h
  · unfold normalizedGenotype at h
    rw [hc] at h
    exact ensureOneAllele_len gene _ g r h

theorem normalizedGenotype_male_err (gene : GeneDefinition) (g : Genotype)
    (hc : gene.chromosome = .X ∨ gene.chromosome = .Y) (hlen : 2 ≤ g.length) :
    ∃ e, normalizedGenotype gene g .Male = .error e := by
  rcases hc with hc | hc
  · unfold normalizedGenotype
    rw [hc]
    exact (ensureOneAllele_error_iff gene _ g).mpr (Or.inl hlen)
  · unfold normalizedGenotype
    rw [hc]
    exact (ensureOneAllele_error_iff gene _ g).mpr (Or.inl hlen)

theorem buildGenotype_lookup (sex : Sex) (provided : List (String × Genotype))
    (genes : List GeneDefinition) :
    ∀ (acc entries : List (String × Genotype)),
      buildGenotype sex provided genes acc = .ok entries →
      ∀ k g, lookupA entries k = some g →
        (∃ gene ∈ genes, gene.id = k ∧
          normalizedGenotype gene ((lookupA provided k).getD []) sex = .ok g) ∨
        lookupA acc k = some g := by
  induction genes with
  | nil =>
      intro acc entries h k g hg
      simp only [buildGenotype, Except.ok.injEq] at h
      subst h
      exact Or.inr hg
  | cons gene rest ih =>
      intro acc entries h k g hg
      simp only [buildGenotype] at h
      cases hn : normalizedGenotype gene ((lookupA provided gene.id).getD []) sex with
      | error e =>
          rw [hn] at h
          cases h
      | ok ng =>
          rw [hn] at h
          rcases ih (setEntry acc gene.id ng) entries h k g hg with
            ⟨gene', hmem, hid, hok⟩ | hacc
          · exact Or.inl ⟨gene', List.mem_cons_of_mem _ hmem, hid, hok⟩
          · by_cases hk : gene.id = k
            · subst hk
              rw [lookupA_setEntry_self] at hacc
              have hng : ng = g := by injection hacc
              subst hng
              exact Or.inl ⟨gene, List.mem_cons_self _ _, rfl, hn⟩
            · rw [lookupA_setEntry_ne acc gene.id k ng (fun hh => hk hh.symm)] at hacc
              exact Or.inr hacc

theorem buildGenotype_error_of_mem (sex : Sex) (provided : List (String × Genotype))
    (genes : List GeneDefinition) :
    ∀ (acc : List (String × Genotype)) (gene : GeneDefinition), gene ∈ genes →
      (∃ e, normalizedGenotype gene ((lookupA provided gene.id).getD []) sex = .error e) →
      ∃ e, buildGenotype sex provided genes acc = .error e := by
  induction genes with
  | nil =>
      intro acc gene hmem
      simp at hmem
  | cons g0 rest ih =>
      intro acc gene hmem herr
      rcases List.mem_cons.mp hmem with rfl | hmem'
      · obtain ⟨e, he⟩ := herr
        simp only [buildGenotype]
        rw [he]
        exact ⟨e, rfl⟩
      · simp only [buildGenotype]
        cases hn : normalizedGenotype g0 ((lookupA provided g0.id).getD []) sex with
        | error e => exact ⟨e, rfl⟩
        | ok ng => exact ih _ gene hmem' herr

theorem buildChildGenotype_lookup (maternal paternal : Gamete) (childSex : Sex)
    (genes : List GeneDefinition) :
    ∀ (acc entries : List (String × Genotype)),
      buildChildGenotype maternal paternal childSex genes acc = .ok entries →
      ∀ k g, lookupA entries k = some g →
        (∃ gene ∈ genes, gene.id = k ∧
          ((gene.chromosome = .X ∨ gene.chromosome = .Y) → childSex = .Male →
            g.length ≤ 1)) ∨
        lookupA acc k = some g := by
  induction genes with
  | nil =>
      intro acc entries h k g hg
      simp only [buildChildGenotype, Except.ok.injEq] at h
      subst h
      exact Or.inr hg
  | cons gene rest ih =>
      intro acc entries h k g hg
      simp only [buildChildGenotype] at h
      cases hcr : gene.chromosome with
      | Autosomal =>
          rw [hcr] at h
          cases hm : lookupA maternal.alleles gene.id with
          | none =>
              rw [hm] at h
              cases h
          | some m =>
              rw [hm] at h
              cases hp : lookupA paternal.alleles gene.id with
              | none =>
                  rw [hp] at h
                  cases h
              | some p =>
                  rw [hp] at h
                  rcases ih (setEntry acc gene.id [m, p]) entries h k g hg with
                    ⟨gene', hmem, hid, hP⟩ | hacc
                  · exact Or.inl ⟨gene', List.mem_cons_of_mem _ hmem, hid, hP⟩
                  · by_cases hk : gene.id = k
                    · subst hk
                      rw [lookupA_setEntry_self] at hacc
                      have hv : ([m, p] : Genotype) = g := by injection hacc
                      refine Or.inl ⟨gene, List.mem_cons_self _ _, rfl, ?_⟩
                      intro hxy _
                      rcases hxy with hx | hy
                      · rw [hcr] at hx
                        cases hx
                      · rw [hcr] at hy
                        cases hy
                    · rw [lookupA_setEntry_ne acc gene.id k [m, p]
                          (fun hh => hk hh.symm)] at hacc
                      exact Or.inr hacc
      | X =>
          rw [hcr] at h
          cases hm : lookupA maternal.alleles gene.id with
          | none =>
              rw [hm] at h
              cases h
          | some m =>
              rw [hm] at h
              cases childSex with
              | Female =>
                  cases hp : lookupA paternal.alleles gene.id with
                  | none =>
                      rw [hp] at h
                      cases h
                  | some p =>
                      rw [hp] at h
                      rcases ih (setEntry acc gene.id [m, p]) entries h k g hg with
                        ⟨gene', hmem, hid, hP⟩ | hacc
                      · exact Or.inl ⟨gene', List.mem_cons_of_mem _ hmem, hid, hP⟩
                      · by_cases hk : gene.id = k
                        · subst hk
                          refine Or.inl ⟨gene, List.mem_cons_self _ _, rfl, ?_⟩
                          intro _ hcs
                          cases hcs
                        · rw [lookupA_setEntry_ne acc gene.id k [m, p]
                              (fun hh => hk hh.symm)] at hacc
                          exact Or.inr hacc
              | Male =>
                  rcases ih (setEntry acc gene.id [m]) entries h k g hg with
                    ⟨gene', hmem, hid, hP⟩ | hacc
                  · exact Or.inl ⟨gene', List.mem_cons_of_mem _ hmem, hid, hP⟩
                  · by_cases hk : gene.id = k
                    · subst hk
                      rw [lookupA_setEntry_self] at hacc
                      have hv : ([m] : Genotype) = g := by injection hacc
                      refine Or.inl ⟨gene, List.mem_cons_self _ _, rfl, ?_⟩
                      intro _ _
                      rw [← hv]
                      simp
                    · rw [lookupA_setEntry_ne acc gene.id k [m]
                          (fun hh => hk hh.symm)] at hacc
                      exact Or.inr hacc
      | Y =>
          rw [hcr] at h
          cases childSex with
          | Female =>
              rcases ih acc entries h k g hg with ⟨gene', hmem, hid, hP⟩ | hacc
              · exact Or.inl ⟨gene', List.mem_cons_of_mem _ hmem, hid, hP⟩
              · exact Or.inr hacc
          | Male =>
              cases hp : lookupA paternal.alleles gene.id with
              | none =>
                  rw [hp] at h
                  cases h
              | some p =>
                  rw [hp] at h
                  rcases ih (setEntry acc gene.id [p]) entries h k g hg with
                    ⟨gene', hmem, hid, hP⟩ | hacc
                  · exact Or.inl ⟨gene', List.mem_cons_of_mem _ hmem, hid, hP⟩
                  · by_cases hk : gene.id = k
                    · subst hk
                      rw [lookupA_setEntry_self] at hacc
                      have hv : ([p] : Genotype) = g := by injection hacc
                      refine Or.inl ⟨gene, List.mem_cons_self _ _, rfl, ?_⟩
                      intro _ _
                      rw [← hv]
                      simp
                    · rw [lookupA_setEntry_ne acc gene.id k [p]
                          (fun hh => hk hh.symm)] at hacc
                      exact Or.inr hacc

/-- C8: every male Individual produced by `createIndividual` or by
`mate` carries at most one allele for every X-linked and every Y-linked
gene, and `createIndividual` rejects any male input supplying two or
more alleles for such a gene (gene ids unique, per the data model). -/
theorem C8_male_sex_linked (config : EngineConfig) (provided : List (String × Genotype))
    (gene : GeneDefinition) :
    ((config.genes.map GeneDefinition.id).Nodup →
      gene ∈ config.genes → (gene.chromosome = .X ∨ gene.chromosome = .Y) →
      (∀ ind g, createIndividual config .Male provided = .ok ind →
          lookupA ind.genotype gene.id = some g → g.length ≤ 1) ∧
      (∀ maternal paternal ind g, mateWith config maternal paternal = .ok ind →
          ind.sex = .Male → lookupA ind.genotype gene.id = some g → g.length ≤ 1)) ∧
    (gene ∈ config.genes → (gene.chromosome = .X ∨ gene.chromosome = .Y) →
      2 ≤ ((lookupA provided gene.id).getD []).length →
      ∀ ind, createIndividual config .Male provided ≠ .ok ind) := by
  constructor
  · intro hnodup hmem hxy
    constructor
    · intro ind g hok hlook
      unfold createIndividual at hok
      cases hb : buildGenotype .Male provided config.genes [] with
      | error e =>
          rw [hb] at hok
          cases hok
      | ok entries =>
          rw [hb] at hok
          have hind : ind = { sex := .Male, genotype := entries } := by
            simp only [Except.map, Except.ok.injEq] at hok
            exact hok.symm
          subst hind
          simp only at hlook
          rcases buildGenotype_lookup .Male provided config.genes [] entries hb
              gene.id g hlook with ⟨gene', hmem', hid, hok'⟩ | habs
          · have hsame : gene' = gene :=
              List.inj_on_of_nodup_map hnodup hmem' hmem hid
            subst hsame
            exact normalizedGenotype_male_len gene' _ g hxy hok'
          · simp [lookupA] at habs
    · intro maternal paternal ind g hok hsex hlook
      unfold mateWith at hok
      have hok2 : Except.map
          (fun entries =>
            { sex := if paternal.carriesY then Sex.Male else Sex.Female,
              genotype := entries : Individual })
          (buildChildGenotype maternal paternal
            (if paternal.carriesY then Sex.Male else Sex.Female) config.genes []) =
          Except.ok ind := hok
      clear hok
      rename' hok2 => hok
      cases hb : buildChildGenotype maternal paternal
          (if paternal.carriesY then Sex.Male else Sex.Female) config.genes [] with
      | error e =>
          rw [hb] at hok
          cases hok
      | ok entries =>
          rw [hb] at hok
          have hind : ind =
              { sex := if paternal.carriesY then Sex.Male else Sex.Female,
                genotype := entries } := by
            simp only [Except.map, Except.ok.injEq] at hok
            exact hok.symm
          subst hind
          simp only at hlook hsex
          rcases buildChildGenotype_lookup maternal paternal
              (if paternal.carriesY then Sex.Male else Sex.Female) config.genes []
              entries hb gene.id g hlook with ⟨gene', hmem', hid, hP⟩ | habs
          · have hsame : gene' = gene :=
              List.inj_on_of_nodup_map hnodup hmem' hmem hid
            subst hsame
            exact hP hxy hsex
          · simp [lookupA] at habs
  · intro hmem hxy hlen ind hok
    have herr := normalizedGenotype_male_err gene ((lookupA provided gene.id).getD [])
      hxy hlen
    obtain ⟨e, he⟩ :=
      buildGenotype_error_of_mem .Male provided config.genes [] gene hmem herr
    unfold createIndividual at hok
    rw [he] at hok
    cases hok

theorem C8_witness :
    (["x1"] : Genotype).length ≤ 1 ∧
    createIndividual cfgX .Male [("gx", ["x1", "x2"])] ≠
      .ok { sex := .Male, genotype := [("gx", ["x1"])] } := by
  constructor
  · exact ((C8_male_sex_linked cfgX [] geneX1).1 (by decide) (by simp [cfgX])
      (Or.inl rfl)).1 { sex := .Male, genotype := [("gx", ["x1"])] } ["x1"]
      (by decide) (by decide)
  · exact (C8_male_sex_linked cfgX [("gx", ["x1", "x2"])] geneX1).2 (by simp [cfgX])
      (Or.inl rfl) (by decide) _

/-- C1 (amended): `expressPhenotype` applies the modifier stages in the
fixed order: first the domain-specific override stage, then the
epistasis overrides, then linkage-group trait compositing, all after
per-gene dominance resolution. -/
theorem C1_stage_order (config : EngineConfig) (ind : Individual) :
    expressPhenotype config ind =
      (dominanceLoop ind config.genes []).map
        (fun ph => applyLinkageTraits config (applyEpistasis config ind
          (applyPhenotypeOverrides config ind ph))) := by
  unfold expressPhenotype
  cases hd : dominanceLoop ind config.genes [] with
  | error e => simp [Except.map]
  | ok ph => simp [Except.map]

/-- C1 counterexample: with a `white_masking` gene whose `W` allele
also triggers a `MaskTrait` epistasis rule on `coat_color`, the
implemented order (overrides before epistasis) leaves the epistasis
descriptor `Masked`, while the spec's order (epistasis before
overrides) would leave `Solid White`; the two pipelines disagree. -/
theorem C1_counterexample :
    expressPhenotype wmCfg wmInd =
      .ok [("coat_color", { quantitative := 0, descriptors := ["Masked"] }),
           ("pigment_intensity", { quantitative := 0, descriptors := [] })] ∧
    specOrderPipeline wmCfg wmInd =
      .ok [("coat_color", { quantitative := 0, descriptors := ["Solid White"] }),
           ("pigment_intensity", { quantitative := 0, descriptors := [] })] ∧
    expressPhenotype wmCfg wmInd ≠ specOrderPipeline wmCfg wmInd := by decide

theorem genotypesToPhenotypes_lookupP (gene : GeneDefinition) (d : ProbMap) :
    ∀ (acc : ProbMap) (L : String),
      lookupP (d.foldl (fun dist kv =>
          addProb dist (getPhenotypeForGenotype gene (parseGenotypeString gene kv.1))
            kv.2) acc) L =
        lookupP acc L +
          ((d.filter (fun kv =>
              getPhenotypeForGenotype gene (parseGenotypeString gene kv.1) = L)).map
            Prod.snd).sum := by
  induction d with
  | nil => intro acc L; simp
  | cons kv rest ih =>
      intro acc L
      simp only [List.foldl_cons]
      rw [ih, lookupP_addProb]
      by_cases h : getPhenotypeForGenotype gene (parseGenotypeString gene kv.1) = L
      · simp [List.filter_cons, h]
        ring
      · simp [List.filter_cons, h]

/-- C2 (amended): the label under which `genotypesToPhenotypes`
accumulates a bucket's probability is the one computed by the
calculator's own `getPhenotypeForGenotype` on the re-parsed genotype —
a standalone dominance routine that does not materialize an Individual
and does not reuse the `expressPhenotype` pipeline; each label's
accumulated mass is the sum of its buckets' probabilities. -/
theorem C2_label_accumulation (gene : GeneDefinition) (d : ProbMap) (L : String) :
    lookupP (genotypesToPhenotypes gene d) L =
      ((d.filter (fun kv =>
          getPhenotypeForGenotype gene (parseGenotypeString gene kv.1) = L)).map
        Prod.snd).sum := by
  unfold genotypesToPhenotypes
  rw [genotypesToPhenotypes_lookupP]
  simp [lookupP, lookupA]

theorem getGameteProbabilities_probSum (gene : GeneDefinition) (g : Genotype) (sex : Sex) :
    getGameteProbabilities gene g sex = [] ∨
      probSum (getGameteProbabilities gene g sex) = 1 := by
  have haddtwo : ∀ a b : String, probSum (addProb (addProb [] a (1/2)) b (1/2)) = 1 := by
    intro a b
    rw [probSum_addProb, probSum_addProb]
    norm_num [probSum]
  have hone : ∀ a : String, probSum (setEntry ([] : ProbMap) a 1) = 1 := by
    intro a
    simp [setEntry, probSum]
  cases hc : gene.chromosome with
  | Autosomal =>
      rcases g with _ | ⟨a, _ | ⟨b, _ | ⟨c, rest⟩⟩⟩
      · left; simp [getGameteProbabilities, hc]
      · right; simpa [getGameteProbabilities, hc] using hone a
      · right; simpa [getGameteProbabilities, hc] using haddtwo a b
      · left; simp [getGameteProbabilities, hc]
  | X =>
      cases sex with
      | Female =>
          rcases g with _ | ⟨a, _ | ⟨b, rest⟩⟩
          · left; simp [getGameteProbabilities, hc]
          · right; simpa [getGameteProbabilities, hc] using hone a
          · right; simpa [getGameteProbabilities, hc] using haddtwo a b
      | Male =>
          rcases g with _ | ⟨a, rest⟩
          · left; simp [getGameteProbabilities, hc]
          · right; simpa [getGameteProbabilities, hc] using hone a
  | Y =>
      cases sex with
      | Female => left; simp [getGameteProbabilities, hc]
      | Male =>
          rcases g with _ | ⟨a, rest⟩
          · left; simp [getGameteProbabilities, hc]
          · right; simpa [getGameteProbabilities, hc] using hone a

theorem combineInner_probSum (gene : GeneDefinition) (a1 : String) (p1 : ℚ)
    (g2 : ProbMap) :
    ∀ acc : ProbMap,
      probSum (g2.foldl (fun dist kv2 =>
          addProb dist (normalizeGenotypeString gene a1 kv2.1) (p1 * kv2.2)) acc) =
        probSum acc + p1 * probSum g2 := by
  induction g2 with
  | nil => intro acc; simp [probSum]
  | cons kv rest ih =>
      intro acc
      simp only [List.foldl_cons]
      rw [ih, probSum_addProb]
      simp only [probSum, List.map_cons, List.sum_cons]
      ring

theorem combineGametes_probSum (gene : GeneDefinition) (g1 g2 : ProbMap) :
    probSum (combineGametes gene g1 g2) = probSum g1 * probSum g2 := by
  unfold combineGametes
  have haux : ∀ acc : ProbMap,
      probSum (g1.foldl (fun dist kv1 => g2.foldl (fun dist kv2 =>
          addProb dist (normalizeGenotypeString gene kv1.1 kv2.1) (kv1.2 * kv2.2)) dist)
        acc) = probSum acc + probSum g1 * probSum g2 := by
    induction g1 with
    | nil => intro acc; simp [probSum]
    | cons kv rest ih =>
        intro acc
        simp only [List.foldl_cons]
        rw [ih, combineInner_probSum]
        simp only [probSum, List.map_cons, List.sum_cons]
        ring
  simpa [probSum] using haux []

theorem probSum_genotypesToPhenotypes (gene : GeneDefinition) (d : ProbMap) :
    probSum (genotypesToPhenotypes gene d) = probSum d := by
  unfold genotypesToPhenotypes
  have haux : ∀ acc : ProbMap,
      probSum (d.foldl (fun dist kv =>
          addProb dist (getPhenotypeForGenotype gene (parseGenotypeString gene kv.1))
            kv.2) acc) = probSum acc + probSum d := by
    induction d with
    | nil => intro acc; simp [probSum]
    | cons kv rest ih =>
        intro acc
        simp only [List.foldl_cons]
        rw [ih, probSum_addProb]
        simp only [probSum, List.map_cons, List.sum_cons]
        ring
  simpa [probSum] using haux []

theorem crossStep_lookup_ne (config : EngineConfig) (p1 p2 : Individual) (pct : Bool)
    (acc : List (String × TraitResult)) (i gid : String) (h : i ≠ gid) :
    lookupA (crossStep config p1 p2 pct acc i) gid = lookupA acc gid := by
  unfold crossStep
  cases config.genes.find? (fun g => g.id = i) with
  | none => rfl
  | some gd =>
      cases lookupA p1.genotype i with
      | none => rfl
      | some g1 =>
          cases lookupA p2.genotype i with
          | none => rfl
          | some g2 => exact lookupA_setEntry_ne acc i gid _ (Ne.symm h)

theorem crossStep_of_none (config : EngineConfig) (p1 p2 : Individual) (pct : Bool)
    (acc : List (String × TraitResult)) (gid : String)
    (h : crossStep? config p1 p2 pct gid = none) :
    crossStep config p1 p2 pct acc gid = acc := by
  unfold crossStep
  unfold crossStep? at h
  cases hf : config.genes.find? (fun g => g.id = gid) with
  | none => rfl
  | some gd =>
      rw [hf] at h
      cases h1 : lookupA p1.genotype gid with
      | none => rfl
      | some g1 =>
          rw [h1] at h
          cases h2 : lookupA p2.genotype gid with
          | none => rfl
          | some g2 =>
              rw [h2] at h
              cases h

theorem crossStep_of_some (config : EngineConfig) (p1 p2 : Individual) (pct : Bool)
    (acc : List (String × TraitResult)) (gid : String) (v : TraitResult)
    (h : crossStep? config p1 p2 pct gid = some v) :
    crossStep config p1 p2 pct acc gid = setEntry acc gid v := by
  unfold crossStep
  unfold crossStep? at h
  cases hf : config.genes.find? (fun g => g.id = gid) with
  | none =>
      rw [hf] at h
      cases h
  | some gd =>
      rw [hf] at h
      cases h1 : lookupA p1.genotype gid with
      | none =>
          rw [h1] at h
          cases h
      | some g1 =>
          rw [h1] at h
          cases h2 : lookupA p2.genotype gid with
          | none =>
              rw [h2] at h
              cases h
          | some g2 =>
              rw [h2] at h
              have hv := h
              simp only [Option.some.injEq] at hv
              simp only [hv]

theorem lookupA_calculateCross (config : EngineConfig) (p1 p2 : Individual)
    (ids : List String) (pct : Bool) (gid : String) :
    lookupA (calculateCross config p1 p2 ids pct) gid =
      if gid ∈ ids then crossStep? config p1 p2 pct gid else none := by
  unfold calculateCross
  have haux : ∀ (l : List String) (acc : List (String × TraitResult)),
      lookupA (l.foldl (crossStep config p1 p2 pct) acc) gid =
        if gid ∈ l ∧ (crossStep? config p1 p2 pct gid).isSome then
          crossStep? config p1 p2 pct gid
        else lookupA acc gid := by
    intro l
    induction l with
    | nil => intro acc; simp
    | cons i rest ih =>
        intro acc
        simp only [List.foldl_cons]
        rw [ih]
        by_cases hi : i = gid
        · subst hi
          cases hs : crossStep? config p1 p2 pct i with
          | none =>
              rw [crossStep_of_none config p1 p2 pct acc i hs]
              simp [hs]
          | some v =>
              rw [crossStep_of_some config p1 p2 pct acc i v hs]
              by_cases hmem : i ∈ rest
              · simp [hs, hmem]
              · simp [hs, hmem, lookupA_setEntry_self]
        · rw [crossStep_lookup_ne config p1 p2 pct acc i gid hi]
          have hgi : ¬ gid = i := fun hh => hi hh.symm
          by_cases hmem : gid ∈ rest
          · simp [List.mem_cons, hmem, hgi]
          · simp [List.mem_cons, hmem, hgi]
  rw [haux ids []]
  cases hs : crossStep? config p1 p2 pct gid with
  | none => simp [hs, lookupA]
  | some v => simp [hs, lookupA]

/-- C3 (amended): whenever `calculateCross` returns a result for a
requested gene and both parents' gamete PMFs for that gene are
non-empty, the genotype and phenotype distributions each sum exactly to
1 (which is within 1e-9), or exactly to 100 when percentages are
requested.  (When a parent's gamete PMF is empty — a Y-linked gene with
a female parent — the returned distributions are empty and sum to 0;
see the counterexample.) -/
theorem C3_cross_sums (config : EngineConfig) (p1 p2 : Individual) (ids : List String)
    (pct : Bool) (gid : String) (gd : GeneDefinition) (g1 g2 : Genotype)
    (tr : TraitResult)
    (hgd : config.genes.find? (fun g => g.id = gid) = some gd)
    (h1 : lookupA p1.genotype gid = some g1)
    (h2 : lookupA p2.genotype gid = some g2)
    (hcross : lookupA (calculateCross config p1 p2 ids pct) gid = some tr)
    (hne1 : getGameteProbabilities gd g1 p1.sex ≠ [])
    (hne2 : getGameteProbabilities gd g2 p2.sex ≠ []) :
    probSum tr.genotypic_ratios = (if pct then 100 else 1) ∧
    probSum tr.phenotypic_ratios = (if pct then 100 else 1) := by
  have hs1 : probSum (getGameteProbabilities gd g1 p1.sex) = 1 := by
    rcases getGameteProbabilities_probSum gd g1 p1.sex with h | h
    · exact absurd h hne1
    · exact h
  have hs2 : probSum (getGameteProbabilities gd g2 p2.sex) = 1 := by
    rcases getGameteProbabilities_probSum gd g2 p2.sex with h | h
    · exact absurd h hne2
    · exact h
  have hcomb : probSum (combineGametes gd (getGameteProbabilities gd g1 p1.sex)
      (getGameteProbabilities gd g2 p2.sex)) = 1 := by
    rw [combineGametes_probSum, hs1, hs2]
    norm_num
  have hgeno : probSum (calculateSingleGene gd g1 g2 p1.sex p2.sex).genotypic_ratios
      = 1 := by
    unfold calculateSingleGene
    exact probSum_normalizeDist _ (by rw [hcomb]; norm_num)
  have hpheno : probSum (calculateSingleGene gd g1 g2 p1.sex p2.sex).phenotypic_ratios
      = 1 := by
    unfold calculateSingleGene
    apply probSum_normalizeDist
    rw [probSum_genotypesToPhenotypes]
    have : probSum (normalizeDist (combineGametes gd
        (getGameteProbabilities gd g1 p1.sex)
        (getGameteProbabilities gd g2 p2.sex))) = 1 :=
      probSum_normalizeDist _ (by rw [hcomb]; norm_num)
    rw [this]
    norm_num
  rw [lookupA_calculateCross] at hcross
  by_cases hmem : gid ∈ ids
  · rw [if_pos hmem] at hcross
    unfold crossStep? at hcross
    rw [hgd, h1, h2] at hcross
    simp only [Option.some.injEq] at hcross
    subst hcross
    cases pct with
    | true =>
        constructor
        · simpa [probSum_toPercentagesDist, hgeno] using by norm_num
        · simpa [probSum_toPercentagesDist, hpheno] using by norm_num
    | false => simpa using ⟨hgeno, hpheno⟩
  · rw [if_neg hmem] at hcross
    cases hcross

theorem foldl_const {α β : Type} (f : α → β → α) (l : List β) (a : α)
    (h : ∀ (a' : α) (x : β), x ∈ l → f a' x = a') : l.foldl f a = a := by
  induction l generalizing a with
  | nil => rfl
  | cons x rest ih =>
      simp only [List.foldl_cons]
      rw [h a x (List.mem_cons_self x rest)]
      exact ih a fun a' y hy => h a' y (List.mem_cons_of_mem x hy)

theorem generateCombinations_missing (individualResults : List (String × TraitResult))
    (ids : List String) :
    ∀ (cur : List String) (prob : ℚ) (joint : ProbMap),
      (∃ g ∈ ids, lookupA individualResults g = none) →
      generateCombinations individualResults ids cur prob joint = joint := by
  induction ids with
  | nil =>
      intro cur prob joint h
      simp at h
  | cons i rest ih =>
      intro cur prob joint h
      obtain ⟨g, hg, hnone⟩ := h
      rcases List.mem_cons.mp hg with rfl | hgr
      · simp only [generateCombinations]
        rw [hnone]
      · simp only [generateCombinations]
        cases hl : lookupA individualResults i with
        | none => rfl
        | some tr =>
            exact foldl_const _ tr.phenotypic_ratios joint
              (fun j kv _ => ih (cur ++ [kv.1]) (prob * kv.2) j ⟨g, hgr, hnone⟩)

/-- C10 (amended): `calculateCross` stores a result for a requested
gene id exactly when the gene is defined and present in both parents
(per-gene results are independent of the other requested ids, and an
unknown or absent gene is simply omitted, with no error); but
`calculateJointPhenotypes` returns the *empty* joint distribution as
soon as any requested gene id is missing from the per-gene results —
the branch dies instead of dropping just that gene. -/
theorem C10_missing_gene_handling (config : EngineConfig) (p1 p2 : Individual)
    (ids : List String) (pct : Bool) (gid : String) :
    (lookupA (calculateCross config p1 p2 ids pct) gid =
      if gid ∈ ids then crossStep? config p1 p2 pct gid else none) ∧
    (gid ∈ ids → crossStep? config p1 p2 false gid = none →
      calculateJointPhenotypes config p1 p2 ids pct = []) := by
  constructor
  · exact lookupA_calculateCross config p1 p2 ids pct gid
  · intro hmem hnone
    have hlook : lookupA (calculateCross config p1 p2 ids false) gid = none := by
      rw [lookupA_calculateCross, if_pos hmem, hnone]
    have hexpand : calculateJointPhenotypes config p1 p2 ids pct =
        (if pct then
          (generateCombinations (calculateCross config p1 p2 ids false) ids [] 1 []).map
            (fun kv => (kv.1, kv.2 * 100))
        else generateCombinations (calculateCross config p1 p2 ids false) ids [] 1 []) :=
      rfl
    rw [hexpand,
      generateCombinations_missing (calculateCross config p1 p2 ids false) ids [] 1 []
        ⟨gid, hmem, hlook⟩]
    cases pct <;> simp

section ConcreteEvaluations

set_option allowUnsafeReducibility true

attribute [local semireducible] Rat.add Rat.mul Rat.inv Rat.sub

/-- C2 counterexample: on a codominant gene with equal-rank alleles
`A`, `B` (single-letter descriptors) the calculator accumulates the
bucket `AB` under the label `"A, B"`, while the throwaway-Individual
pipeline of `expressPhenotype` produces the label `"AB"`; the claimed
equality of labels fails. -/
theorem C2_counterexample :
    genotypesToPhenotypes gAB [("AB", 1)] = [("A, B", 1)] ∧
    specPipelineLabel gAB (parseGenotypeString gAB "AB") = "AB" ∧
    lookupA (genotypesToPhenotypes gAB [("AB", 1)])
      (specPipelineLabel gAB (parseGenotypeString gAB "AB")) = none := by decide

/-- C4 (amended): `AB × AO` on the codominant ABO gene yields genotype
distribution {AA:0.25, AO:0.25, AB:0.25, BO:0.25} and phenotype
distribution {A:0.5, "A, B":0.25, B:0.25} — the heterozygote's label
joins the two descriptors with `", "` instead of concatenating them. -/
theorem C4_abo_cross :
    calculateCross cfgABO parAB parAO ["abo_blood"] false =
      [("abo_blood",
        { genotypic_ratios := [("AA", 1/4), ("AO", 1/4), ("AB", 1/4), ("BO", 1/4)],
          phenotypic_ratios := [("A", 1/2), ("A, B", 1/4), ("B", 1/4)] })] := by decide

/-- C4 counterexample: the claimed phenotype bucket `AB` does not exist
in the computed distribution (the mass sits under `"A, B"`). -/
theorem C4_counterexample :
    (calculateCross cfgABO parAB parAO ["abo_blood"] false).map
        (fun kv => lookupA kv.2.phenotypic_ratios "AB") = [none] ∧
    (calculateCross cfgABO parAB parAO ["abo_blood"] false).map
        (fun kv => lookupA kv.2.phenotypic_ratios "A, B") = [some (1/4)] := by decide

/-- C3 counterexample: crossing the normalized parents of a Y-linked
gene (female parent carries the gene with an empty genotype) makes
`calculateCross` return *empty* genotype and phenotype distributions
for that gene — their sums are 0, not 1. -/
theorem C3_counterexample :
    createIndividual cfgY .Female [] = .ok indYF ∧
    createIndividual cfgY .Male [] = .ok indYM ∧
    lookupA (calculateCross cfgY indYF indYM ["gy"] false) "gy" =
      some { genotypic_ratios := [], phenotypic_ratios := [] } ∧
    probSum ([] : ProbMap) ≠ 1 := by decide

theorem C3_witness :
    probSum ({ genotypic_ratios := [("BB", (1 : ℚ)/4), ("Bb", 1/2), ("bb", 1/4)],
               phenotypic_ratios := [("Brown", (3 : ℚ)/4), ("Blue", 1/4)] } :
        TraitResult).genotypic_ratios = (if false then 100 else 1) ∧
    probSum ({ genotypic_ratios := [("BB", (1 : ℚ)/4), ("Bb", 1/2), ("bb", 1/4)],
               phenotypic_ratios := [("Brown", (3 : ℚ)/4), ("Blue", 1/4)] } :
        TraitResult).phenotypic_ratios = (if false then 100 else 1) :=
  C3_cross_sums cfgEye parEye1 parEye2 ["eye_color"] false "eye_color" eyeColor
    ["B", "b"] ["B", "b"] _ (by decide) (by decide) (by decide) (by decide)
    (by decide) (by decide)

/-- C10 counterexample: requesting `["eye_color", "nonexistent"]` makes
`calculateJointPhenotypes` return the empty distribution — it does not
drop the unknown gene and keep `eye_color`'s phenotypes (which
requesting `["eye_color"]` alone yields); `calculateCross` itself omits
only the unknown gene and leaves `eye_color` unaffected. -/
theorem C10_counterexample :
    calculateJointPhenotypes cfgEye parEye1 parEye2 ["eye_color", "nonexistent"] false
      = [] ∧
    calculateJointPhenotypes cfgEye parEye1 parEye2 ["eye_color"] false =
      [("Brown", 3/4), ("Blue", 1/4)] ∧
    lookupA (calculateCross cfgEye parEye1 parEye2 ["eye_color", "nonexistent"] false)
        "eye_color" =
      lookupA (calculateCross cfgEye parEye1 parEye2 ["eye_color"] false) "eye_color" ∧
    lookupA (calculateCross cfgEye parEye1 parEye2 ["eye_color", "nonexistent"] false)
      "nonexistent" = none := by decide

theorem C10_witness :
    lookupA (calculateCross cfgEye parEye1 parEye2 ["nonexistent"] false) "nonexistent" =
      (if "nonexistent" ∈ ["nonexistent"] then
        crossStep? cfgEye parEye1 parEye2 false "nonexistent"
      else none) ∧
    calculateJointPhenotypes cfgEye parEye1 parEye2 ["nonexistent"] false = [] := by
  constructor
  · exact (C10_missing_gene_handling cfgEye parEye1 parEye2 ["nonexistent"] false
      "nonexistent").1
  · exact (C10_missing_gene_handling cfgEye parEye1 parEye2 ["nonexistent"] false
      "nonexistent").2 (by decide) (by decide)

end ConcreteEvaluations

end Zygotrix
